import Mathlib

/-!
Shallow embedding of the canvas-completer repository core logic
(filename sanitizer, HTML-to-markdown converter, caption parser,
content-type classifier, PDF/zip extractors, module-item normalizer,
submission state machine, detection-result cache), together with
theorems settling the specification claims.

Strings are modelled as lists of characters; regular-expression
substitutions from the Python source are embedded as explicit
left-to-right scanning functions whose matchers reproduce the
deterministic semantics of the concrete patterns used in the source.
-/

namespace CanvasCompleter

/-- Python `\s` on the ASCII range: space, tab, newline, carriage return,
vertical tab, form feed. -/
def isPySpace (c : Char) : Bool :=
  c == ' ' || c == '\t' || c == '\n' || c == '\r' || c == '\x0b' || c == '\x0c'

/-- Characters removed by the sanitizer regex `[<>:"/\\|?*]`
(src/canvas_browser.py, sanitize_filename). -/
def isForbiddenChar (c : Char) : Bool :=
  c == '<' || c == '>' || c == ':' || c == '\"' || c == '/' || c == '\\' ||
  c == '|' || c == '?' || c == '*'

/-- One pass of `re.sub(r"\s+", "_", name)`: every maximal run of
whitespace becomes a single underscore.  The flag records whether the
previous character was part of a whitespace run. -/
def collapseSpaceRuns (inRun : Bool) : List Char → List Char
  | [] => []
  | c :: rest =>
    if isPySpace c then
      (if inRun then [] else ['_']) ++ collapseSpaceRuns true rest
    else
      c :: collapseSpaceRuns false rest

/-- Remove the maximal trailing run of characters satisfying p
(the right half of Python str.strip). -/
def dropTrailing (p : Char → Bool) : List Char → List Char
  | [] => []
  | c :: rest =>
    match dropTrailing p rest with
    | [] => if p c then [] else [c]
    | r => c :: r

/-- Python str.strip(chars): drop leading and trailing characters
satisfying p. -/
def pyStripSet (p : Char → Bool) (l : List Char) : List Char :=
  dropTrailing p (l.dropWhile p)

/-- A dot or an underscore: the characters stripped from the edges by
name.strip of the dot-underscore pair. -/
def isEdgeChar (c : Char) : Bool := c == '.' || c == '_'

/-- The name after removing forbidden characters, collapsing whitespace
runs to underscores and stripping leading and trailing dots and
underscores — sanitize_filename before its final truncation. -/
def sanitizedCore (name : String) : List Char :=
  pyStripSet isEdgeChar
    (collapseSpaceRuns false (name.data.filter (fun c => !(isForbiddenChar c))))

/-- src/canvas_browser.py sanitize_filename: remove forbidden characters,
collapse whitespace runs to underscores, strip leading and trailing
dots and underscores, truncate to 100 characters. -/
def sanitize_filename (name : String) : String :=
  String.mk ((sanitizedCore name).take 100)

/-- The property the claim asserts of sanitize_filename on one input:
no forbidden characters, length at most 100, and no leading or trailing
dot or underscore. -/
def sanitizeClaimB (s : String) : Bool :=
  (sanitize_filename s).data.all (fun c => !(isForbiddenChar c)) &&
  decide ((sanitize_filename s).data.length ≤ 100) &&
  !(((sanitize_filename s).data.head?.map isEdgeChar).getD false) &&
  !(((sanitize_filename s).data.getLast?.map isEdgeChar).getD false)

/-- Does the second list start with the first. -/
def listStartsWith : List Char → List Char → Bool
  | [], _ => true
  | _ :: _, [] => false
  | p :: ps, c :: cs => p == c && listStartsWith ps cs

/-- Scanner for replaceAllCh: the counter records how many characters of
a previous match remain to be skipped without being emitted. -/
def replaceAllChAux (pat rep : List Char) : Nat → List Char → List Char
  | _, [] => []
  | Nat.succ k, _ :: rest => replaceAllChAux pat rep k rest
  | 0, c :: rest =>
    if listStartsWith pat (c :: rest) then
      rep ++ replaceAllChAux pat rep (pat.length - 1) rest
    else
      c :: replaceAllChAux pat rep 0 rest

/-- Replace every occurrence of a nonempty pattern, scanning left to
right (Python str.replace). -/
def replaceAllCh (pat rep l : List Char) : List Char :=
  replaceAllChAux pat rep 0 l

/-- Does the pattern occur anywhere in the list. -/
def containsSub (pat : List Char) : List Char → Bool
  | [] => listStartsWith pat []
  | c :: rest => listStartsWith pat (c :: rest) || containsSub pat rest

/-- ASCII lowercasing of one character (the url and byte buffers the
source lowercases are ASCII). -/
def asciiLower (c : Char) : Char :=
  if 'A' ≤ c && c ≤ 'Z' then Char.ofNat (c.toNat + 32) else c

/-- ASCII lowercasing of a character list. -/
def lowerCh (l : List Char) : List Char := l.map asciiLower

/-- Does the list end with the pattern. -/
def listEndsWith (pat l : List Char) : Bool :=
  listStartsWith pat.reverse l.reverse

/-- Join character lists with a separator (str.join). -/
def joinWith (sep : List Char) : List (List Char) → List Char
  | [] => []
  | [x] => x
  | x :: y :: rest => x ++ sep ++ joinWith sep (y :: rest)

/-- Split a character list at newlines (str.split on newline): the
number of pieces is one more than the number of newline characters. -/
def splitLinesCh : List Char → List (List Char)
  | [] => [[]]
  | c :: rest =>
    if c == '\n' then [] :: splitLinesCh rest
    else
      match splitLinesCh rest with
      | [] => [[c]]
      | h :: t => (c :: h) :: t

/-- Split at the first occurrence of a character, dropping it; nothing
when the character does not occur. -/
def splitOnceCh (sep : Char) : List Char → Option (List Char × List Char)
  | [] => none
  | c :: rest =>
    if c == sep then some ([], rest)
    else
      match splitOnceCh sep rest with
      | some (a, b) => some (c :: a, b)
      | none => none

/-! ## Regular-expression substitution machinery

The source applies re.sub with a fixed set of concrete patterns.  Each
pattern is embedded as a matcher that, at a given position, either fails
or returns the replacement text together with the number of characters
the match consumes; pySub scans left to right, substituting at the first
position where the matcher succeeds and resuming after the match, as
re.sub does. -/

/-- Scanner for pySub: the counter records how many characters of the
current match remain to be skipped without being emitted. -/
def pySubAux (m : List Char → Option (List Char × Nat)) : Nat → List Char → List Char
  | _, [] => []
  | Nat.succ k, _ :: rest => pySubAux m k rest
  | 0, c :: rest =>
    match m (c :: rest) with
    | some (rep, n) => rep ++ pySubAux m (n - 1) rest
    | none => c :: pySubAux m 0 rest

/-- Left-to-right regex substitution driven by a matcher. -/
def pySub (m : List Char → Option (List Char × Nat)) (l : List Char) : List Char :=
  pySubAux m 0 l

/-- Find the first position where a positional matcher succeeds,
returning the text before the match, the match length and the remainder
after the match. -/
def scanFirst (p : List Char → Option Nat) : List Char → Option (List Char × Nat × List Char)
  | [] =>
    match p [] with
    | some n => some ([], n, [])
    | none => none
  | c :: rest =>
    match p (c :: rest) with
    | some n => some ([], n, (c :: rest).drop n)
    | none =>
      match scanFirst p rest with
      | some (pre, n, post) => some (c :: pre, n, post)
      | none => none

/-- Positional matcher for a literal pattern. -/
def litPat (pat : List Char) (l : List Char) : Option Nat :=
  if listStartsWith pat l then some pat.length else none

/-- Matcher for the pattern of one angle-bracket tag, an opening bracket
followed by one or more characters other than a closing bracket and a
closing bracket; the replacement is empty (the strip-remaining-tags
substitution). -/
def matchStripTag (l : List Char) : Option (List Char × Nat) :=
  if listStartsWith "<".data l then
    let rest := l.drop 1
    let inner := rest.takeWhile (fun c => !(c == '>'))
    if inner.isEmpty then none
    else
      match rest.drop inner.length with
      | '>' :: _ => some ([], inner.length + 2)
      | _ => none
  else none

/-- Matcher for the pattern of an opening tag with attributes, a
non-greedy body and the matching closing tag, all case-sensitive with
dot matching newlines: the literal opening bracket and tag name, any
characters other than a closing bracket, a closing bracket, then the
shortest body up to the first occurrence of the closing tag.  The
replacement wraps the captured body between the given pieces. -/
def matchWrapTag (tag pre post : List Char) (l : List Char) : Option (List Char × Nat) :=
  if listStartsWith ('<' :: tag) l then
    let rest1 := l.drop (tag.length + 1)
    let attrs := rest1.takeWhile (fun c => !(c == '>'))
    match rest1.drop attrs.length with
    | '>' :: body =>
      match scanFirst (litPat ('<' :: '/' :: (tag ++ ['>']))) body with
      | some (grp, _, after) => some (pre ++ grp ++ post, l.length - after.length)
      | none => none
    | _ => none
  else none

/-- One attempt of the link pattern with the href attribute starting
after the given number of attribute characters. -/
def linkTryAt (l rest1 : List Char) (i : Nat) : Option (List Char × Nat) :=
  let afterHref := rest1.drop (i + 6)
  let url := afterHref.takeWhile (fun c => !(c == '\"'))
  match afterHref.drop url.length with
  | '\"' :: rest2 =>
    let attrs2 := rest2.takeWhile (fun c => !(c == '>'))
    match rest2.drop attrs2.length with
    | '>' :: body =>
      match scanFirst (litPat "</a>".data) body with
      | some (txt, _, after) =>
        some (('[' :: txt ++ [']', '(']) ++ url ++ [')'], l.length - after.length)
      | none => none
    | _ => none
  | _ => none

/-- Greedy backtracking over the positions where the href attribute may
start inside the run of non-closing-bracket characters: the regex engine
tries the longest attribute prefix first. -/
def linkTryFrom (l rest1 : List Char) : Nat → Option (List Char × Nat)
  | 0 =>
    if listStartsWith "href=\"".data rest1 then linkTryAt l rest1 0 else none
  | Nat.succ i =>
    match (if listStartsWith "href=\"".data (rest1.drop (i + 1)) then
             linkTryAt l rest1 (i + 1) else none) with
    | some r => some r
    | none => linkTryFrom l rest1 i

/-- Matcher for the anchor pattern with an href attribute in double
quotes and a non-greedy body; the replacement is the markdown link. -/
def matchLink (l : List Char) : Option (List Char × Nat) :=
  if listStartsWith "<a".data l then
    let rest1 := l.drop 2
    let zone := rest1.takeWhile (fun c => !(c == '>'))
    linkTryFrom l rest1 zone.length
  else none

/-- Matcher for an opening or closing ordered-list or unordered-list tag
with attributes; the replacement is one newline. -/
def matchOlUl (l : List Char) : Option (List Char × Nat) :=
  if listStartsWith "<".data l then
    let su :=
      match l.drop 1 with
      | '/' :: r => (r, 2)
      | r => (r, 1)
    match su.1 with
    | c :: ('l' :: r2) =>
      if c == 'o' || c == 'u' then
        let attrs := r2.takeWhile (fun d => !(d == '>'))
        match r2.drop attrs.length with
        | '>' :: _ => some (['\n'], su.2 + 2 + attrs.length + 1)
        | _ => none
      else none
    | _ => none
  else none

/-- Matcher for an opening or closing div tag with attributes; the
replacement is one newline. -/
def matchDiv (l : List Char) : Option (List Char × Nat) :=
  if listStartsWith "<".data l then
    let su :=
      match l.drop 1 with
      | '/' :: r => (r, 2)
      | r => (r, 1)
    if listStartsWith "div".data su.1 then
      let r3 := su.1.drop 3
      let attrs := r3.takeWhile (fun d => !(d == '>'))
      match r3.drop attrs.length with
      | '>' :: _ => some (['\n'], su.2 + 3 + attrs.length + 1)
      | _ => none
    else none
  else none

/-- Matcher for a line-break tag, optional whitespace and optional
self-closing slash; the replacement is one newline. -/
def matchBr (l : List Char) : Option (List Char × Nat) :=
  if listStartsWith "<br".data l then
    let r1 := l.drop 3
    let ws := r1.takeWhile isPySpace
    match r1.drop ws.length with
    | '/' :: ('>' :: _) => some (['\n'], 3 + ws.length + 2)
    | '>' :: _ => some (['\n'], 3 + ws.length + 1)
    | _ => none
  else none

/-- Matcher for a run of three or more newlines, replaced by exactly
two. -/
def matchNewlines3 (l : List Char) : Option (List Char × Nat) :=
  let run := l.takeWhile (fun c => c == '\n')
  if run.length ≥ 3 then some ("\n\n".data, run.length) else none

/-- Matcher for a run of two or more spaces, replaced by one space. -/
def matchSpaces2 (l : List Char) : Option (List Char × Nat) :=
  let run := l.takeWhile (fun c => c == ' ')
  if run.length ≥ 2 then some ([' '], run.length) else none

/-- Model of html.unescape restricted to the core entity references the
converted payloads use, each decoded at an ampersand and scanned left to
right; other ampersands are kept verbatim.  The counter records how many
characters of a decoded reference remain to be skipped. -/
def pyUnescapeAux : Nat → List Char → List Char
  | Nat.succ k, _ :: rest => pyUnescapeAux k rest
  | _, [] => []
  | 0, c :: rest =>
    if c == '&' then
      if listStartsWith "amp;".data rest then '&' :: pyUnescapeAux 4 rest
      else if listStartsWith "lt;".data rest then '<' :: pyUnescapeAux 3 rest
      else if listStartsWith "gt;".data rest then '>' :: pyUnescapeAux 3 rest
      else if listStartsWith "quot;".data rest then '\"' :: pyUnescapeAux 5 rest
      else if listStartsWith "#39;".data rest then '\'' :: pyUnescapeAux 4 rest
      else if listStartsWith "nbsp;".data rest then '\xA0' :: pyUnescapeAux 5 rest
      else c :: pyUnescapeAux 0 rest
    else c :: pyUnescapeAux 0 rest

/-- Decode entity references (html.unescape model). -/
def pyUnescape (l : List Char) : List Char := pyUnescapeAux 0 l

/-- src/canvas_browser.py html_to_markdown: the ordered sequence of
substitutions — headers, bold and italic, links, list items, list
containers, paragraphs, breaks, divs, remaining-tag stripping — then
entity decoding, newline-run collapsing and outer strip.  A falsy input
(empty or missing) yields the empty string. -/
def html_to_markdown (html : String) : String :=
  if html.data.isEmpty then ""
  else
    let t := html.data
    let t := pySub (matchWrapTag "h1".data "# ".data "\n".data) t
    let t := pySub (matchWrapTag "h2".data "## ".data "\n".data) t
    let t := pySub (matchWrapTag "h3".data "### ".data "\n".data) t
    let t := pySub (matchWrapTag "h4".data "#### ".data "\n".data) t
    let t := pySub (matchWrapTag "strong".data "**".data "**".data) t
    let t := pySub (matchWrapTag "b".data "**".data "**".data) t
    let t := pySub (matchWrapTag "em".data "*".data "*".data) t
    let t := pySub (matchWrapTag "i".data "*".data "*".data) t
    let t := pySub matchLink t
    let t := pySub (matchWrapTag "li".data "- ".data "\n".data) t
    let t := pySub matchOlUl t
    let t := pySub (matchWrapTag "p".data [] "\n\n".data) t
    let t := pySub matchBr t
    let t := pySub matchDiv t
    let t := pySub matchStripTag t
    let t := pyUnescape t
    let t := pySub matchNewlines3 t
    String.mk (pyStripSet isPySpace t)

/-- Length of the leading newline run. -/
def lnr (s : List Char) : Nat := (s.takeWhile (fun c => c == '\n')).length

/-- No three consecutive newlines anywhere. -/
def noTriple (s : List Char) : Prop := containsSub "\n\n\n".data s = false

/-! ## Caption parser -/

/-- A character allowed in a cue identifier by the hex-id regex: a hex
letter a to f, a decimal digit, or a dash. -/
def isHexIdChar (c : Char) : Bool :=
  ('a' ≤ c && c ≤ 'f') || c.isDigit || c == '-'

/-- Handling of one caption line by parse_caption_file: strip it, drop
header lines, timestamp lines, pure cue numbers and hex ids and blank
lines, remove angle-bracket tags from the rest, and keep the line when
anything remains. -/
def processCaptionLine (line : List Char) : Option (List Char) :=
  let l := pyStripSet isPySpace line
  if listStartsWith "WEBVTT".data l || listStartsWith "NOTE".data l then none
  else if containsSub "-->".data l then none
  else if !l.isEmpty && l.all Char.isDigit then none
  else if !l.isEmpty && l.all isHexIdChar then none
  else if l.isEmpty then none
  else
    let cleaned := pySub matchStripTag l
    if cleaned.isEmpty then none else some cleaned

/-- The line-level body of parse_caption_file: surviving lines joined
with single spaces. -/
def parse_caption_lines (lines : List (List Char)) : List Char :=
  joinWith " ".data (lines.filterMap processCaptionLine)

/-- src/canvas_completer/content_extractor.py parse_caption_file: parse
a VTT or SRT caption file to plain flattened text. -/
def parse_caption_file (content : String) : String :=
  String.mk (parse_caption_lines (splitLinesCh content.data))

/-! ## URL splitting and the content-type classifier -/

/-- The components returned by urllib urlsplit. -/
structure UrlParts where
  scheme : List Char
  netloc : List Char
  path : List Char
  query : List Char
  fragment : List Char
deriving DecidableEq

/-- A character admissible in a URL scheme. -/
def isSchemeChar (c : Char) : Bool :=
  c.isAlpha || c.isDigit || c == '+' || c == '-' || c == '.'

/-- Model of CPython urllib.parse.urlsplit: sanitize, split the scheme,
take the network location after a double slash up to the first slash,
question mark or hash, then split fragment and query.  A network
location holding an unbalanced square bracket raises ValueError Invalid
IPv6 URL, modelled as the error case (further bracketed-host validation
of newer interpreters is not modelled). -/
def pyUrlsplit (url : String) : Except String UrlParts :=
  let u0 := url.data.filter (fun c => !(c == '\t' || c == '\r' || c == '\n'))
  let u1 := pyStripSet (fun c => decide (c.toNat ≤ 32)) u0
  let su :=
    match splitOnceCh ':' u1 with
    | some (before, after) =>
      if !before.isEmpty && (before.headD 'a').isAlpha && before.all isSchemeChar then
        (lowerCh before, after)
      else ([], u1)
    | none => ([], u1)
  let scheme := su.1
  let rest := su.2
  let nl :=
    if listStartsWith "//".data rest then
      let netloc := (rest.drop 2).takeWhile (fun c => !(c == '/' || c == '?' || c == '#'))
      (netloc, (rest.drop 2).drop netloc.length)
    else ([], rest)
  let netloc := nl.1
  let rest2 := nl.2
  if (netloc.contains '[' && !(netloc.contains ']')) ||
     (netloc.contains ']' && !(netloc.contains '[')) then
    Except.error "Invalid IPv6 URL"
  else
    let rf :=
      match splitOnceCh '#' rest2 with
      | some (a, b) => (a, b)
      | none => (rest2, [])
    let pq :=
      match splitOnceCh '?' rf.1 with
      | some (a, b) => (a, b)
      | none => (rf.1, [])
    Except.ok ⟨scheme, netloc, pq.1, pq.2, rf.2⟩

/-- src/canvas_completer/content_extractor.py identify_content_type: the
unused urlparse call runs first and its ValueError propagates; then the
tag is decided by substring match on the lowered url and by extension. -/
def identify_content_type (url : String) : Except String String :=
  let url_lower := lowerCh url.data
  match pyUrlsplit url with
  | Except.error e => Except.error e
  | Except.ok _ =>
    Except.ok (
      if containsSub "youtube.com".data url_lower || containsSub "youtu.be".data url_lower then
        "youtube"
      else if containsSub "vimeo.com".data url_lower then "vimeo"
      else if containsSub "panopto".data url_lower then "panopto"
      else if listEndsWith ".pdf".data url_lower then "pdf"
      else if listEndsWith ".doc".data url_lower || listEndsWith ".docx".data url_lower then "word"
      else if listEndsWith ".ppt".data url_lower || listEndsWith ".pptx".data url_lower then "powerpoint"
      else "webpage")

/-! ## PDF text extraction -/

/-- Byte buffers are modelled as characters codes; the tests the source
performs on them (magic prefix, lowered substring search) act on these
codes.  The pypdf page iteration is modelled by the list of per-page
extract_text outcomes: a page either yields its text or raises. -/
def containsHtmlMarker (l : List Char) : Bool :=
  containsSub "<html".data l || containsSub "<!doctype".data l

/-- The accumulation loop over reader pages: non-empty page texts are
collected in order; an exception from any page escapes the loop (there
is no per-page handler) and surfaces as the error. -/
def collectPages : List (Except String String) → Except String (List String)
  | [] => Except.ok []
  | Except.error e :: _ => Except.error e
  | Except.ok t :: rest =>
    match collectPages rest with
    | Except.error e => Except.error e
    | Except.ok ts => Except.ok (if t.data.isEmpty then ts else t :: ts)

/-- src/canvas_completer/content_extractor.py extract_pdf_text on a byte
buffer: check the PDF magic, disambiguate HTML payloads, then join the
page texts with blank lines; any exception inside the try maps to the
bracketed error placeholder. -/
def extract_pdf_text (pdfBytes : String)
    (pages : Except String (List (Except String String))) : String :=
  if !(listStartsWith "%PDF".data pdfBytes.data) then
    if containsHtmlMarker (lowerCh (pdfBytes.data.take 1000)) then
      "[Could not extract PDF: received HTML instead of PDF - authentication may have failed]"
    else
      "[Could not extract PDF: file does not appear to be a valid PDF]"
  else
    match pages with
    | Except.error e => "[Could not extract PDF text: " ++ e ++ "]"
    | Except.ok ps =>
      match collectPages ps with
      | Except.error e => "[Could not extract PDF text: " ++ e ++ "]"
      | Except.ok parts => String.mk (joinWith "\n\n".data (parts.map String.data))

/-- The text one page contributes under per-page handling: its text when
extraction succeeds with something non-empty, nothing otherwise. -/
def pageText : Except String String → Option String
  | Except.ok t => if t.data.isEmpty then none else some t
  | Except.error _ => none

/-- The first page-level exception, in page order. -/
def firstPageError : List (Except String String) → Option String
  | [] => none
  | Except.error e :: _ => some e
  | Except.ok _ :: rest => firstPageError rest

/-- The path-input variant of extract_pdf_text: the source skips the
magic check when given a path and goes straight to the page loop. -/
def extract_pdf_text_from_path
    (pages : Except String (List (Except String String))) : String :=
  match pages with
  | Except.error e => "[Could not extract PDF text: " ++ e ++ "]"
  | Except.ok ps =>
    match collectPages ps with
    | Except.error e => "[Could not extract PDF text: " ++ e ++ "]"
    | Except.ok parts => String.mk (joinWith "\n\n".data (parts.map String.data))

/-! ## Webpage extractor (case-insensitive substitutions) -/

/-- Case-insensitive prefix test against a lowercase pattern. -/
def ciStartsWith (pat l : List Char) : Bool :=
  listStartsWith pat (lowerCh l)

/-- Positional matcher for a literal pattern, case-insensitive. -/
def litPatCI (pat : List Char) (l : List Char) : Option Nat :=
  if ciStartsWith pat l then some pat.length else none

/-- Case-insensitive variant of the wrap-tag matcher. -/
def matchWrapTagCI (tag pre post : List Char) (l : List Char) : Option (List Char × Nat) :=
  if ciStartsWith ('<' :: tag) l then
    let rest1 := l.drop (tag.length + 1)
    let attrs := rest1.takeWhile (fun c => !(c == '>'))
    match rest1.drop attrs.length with
    | '>' :: body =>
      match scanFirst (litPatCI ('<' :: '/' :: (tag ++ ['>']))) body with
      | some (grp, _, after) => some (pre ++ grp ++ post, l.length - after.length)
      | none => none
    | _ => none
  else none

/-- Case-insensitive matcher for a tag pair whose whole extent is
dropped (script and style blocks). -/
def matchDropTagCI (tag : List Char) (l : List Char) : Option (List Char × Nat) :=
  if ciStartsWith ('<' :: tag) l then
    let rest1 := l.drop (tag.length + 1)
    let attrs := rest1.takeWhile (fun c => !(c == '>'))
    match rest1.drop attrs.length with
    | '>' :: body =>
      match scanFirst (litPatCI ('<' :: '/' :: (tag ++ ['>']))) body with
      | some (_, _, after) => some ([], l.length - after.length)
      | none => none
    | _ => none
  else none

/-- Positional matcher for a closing heading tag with any level digit,
case-insensitive. -/
def closeHeadPat (u : List Char) : Option Nat :=
  if ciStartsWith "</h".data u then
    match u.drop 3 with
    | e :: ('>' :: _) => if '1' ≤ e && e ≤ '6' then some 5 else none
    | _ => none
  else none

/-- Case-insensitive matcher for a heading of any level, replaced by a
second-level markdown heading surrounded by blank lines; the opening and
closing level digits may differ, as in the regex. -/
def matchHeadingCI (l : List Char) : Option (List Char × Nat) :=
  if ciStartsWith "<h".data l then
    match l.drop 2 with
    | d :: rest1 =>
      if '1' ≤ d && d ≤ '6' then
        let attrs := rest1.takeWhile (fun c => !(c == '>'))
        match rest1.drop attrs.length with
        | '>' :: body =>
          match scanFirst closeHeadPat body with
          | some (grp, _, after) =>
            some ("\n\n## ".data ++ grp ++ "\n\n".data, l.length - after.length)
          | none => none
        | _ => none
      else none
    | [] => none
  else none

/-- Case-insensitive matcher for a line-break tag. -/
def matchBrCI (l : List Char) : Option (List Char × Nat) :=
  if ciStartsWith "<br".data l then
    let r1 := l.drop 3
    let ws := r1.takeWhile isPySpace
    match r1.drop ws.length with
    | '/' :: ('>' :: _) => some (['\n'], 3 + ws.length + 2)
    | '>' :: _ => some (['\n'], 3 + ws.length + 1)
    | _ => none
  else none

/-- Outcome of the page fetch performed by extract_webpage_content: a
body, a non-ok response status, or a raised exception. -/
inductive FetchResult where
  | ok (html : String)
  | httpError (status : Nat)
  | exn (e : String)
deriving DecidableEq

/-- src/canvas_completer/content_extractor.py extract_webpage_content:
fetch, report fetch failures as placeholders, then strip script and
style blocks, mark headings, paragraphs, breaks and list items, strip
remaining tags, decode entities and normalize whitespace. -/
def extract_webpage_content (fetch : FetchResult) : String :=
  match fetch with
  | FetchResult.exn e => "[Could not extract webpage content: " ++ e ++ "]"
  | FetchResult.httpError status => "[Could not fetch page: " ++ toString status ++ "]"
  | FetchResult.ok html =>
    let t := html.data
    let t := pySub (matchDropTagCI "script".data) t
    let t := pySub (matchDropTagCI "style".data) t
    let t := pySub matchHeadingCI t
    let t := pySub (matchWrapTagCI "p".data [] "\n\n".data) t
    let t := pySub matchBrCI t
    let t := pySub (matchWrapTagCI "li".data "• ".data "\n".data) t
    let t := pySub matchStripTag t
    let t := pyUnescape t
    let t := pySub matchNewlines3 t
    let t := pySub matchSpaces2 t
    String.mk (pyStripSet isPySpace t)

/-! ## Video id extraction and transcripts -/

/-- Split at every occurrence of a character (str.split with one
separator). -/
def splitAllCh (sep : Char) : List Char → List (List Char)
  | [] => [[]]
  | c :: rest =>
    if c == sep then [] :: splitAllCh sep rest
    else
      match splitAllCh sep rest with
      | [] => [[c]]
      | h :: t => (c :: h) :: t

/-- First value for a key in a query string, with blank values skipped
(urllib parse_qs get, first element; percent decoding is not needed by
the ids the source extracts and is not modelled). -/
def parse_qs_get (query : List Char) (key : String) : Option String :=
  (splitAllCh '&' query).findSome? (fun p =>
    match splitOnceCh '=' p with
    | some (k, v) => if k == key.data && !v.isEmpty then some (String.mk v) else none
    | none => none)

/-- src/canvas_completer/content_extractor.py extract_youtube_id; the
urlparse failure propagates as the error case. -/
def extract_youtube_id (url : String) : Except String (Option String) :=
  match pyUrlsplit url with
  | Except.error e => Except.error e
  | Except.ok parts =>
    Except.ok (
      if containsSub "youtube.com".data parts.netloc then
        if parts.path == "/watch".data then parse_qs_get parts.query "v"
        else if listStartsWith "/embed/".data parts.path then
          some (String.mk (((splitAllCh '/' parts.path).drop 2).headD []))
        else none
      else if containsSub "youtu.be".data parts.netloc then
        some (String.mk (parts.path.drop 1))
      else none)

/-- src/canvas_completer/content_extractor.py extract_panopto_id:
the video id from the query of a panopto host URL. -/
def extract_panopto_id (url : String) : Except String (Option (String × String)) :=
  match pyUrlsplit url with
  | Except.error e => Except.error e
  | Except.ok parts =>
    Except.ok (
      if containsSub "panopto".data (lowerCh parts.netloc) then
        match parse_qs_get parts.query "id" with
        | some vid => some (vid, String.mk parts.netloc)
        | none => none
      else none)

/-- The delivery information the Panopto endpoint returns: the caption
track list (per track, the url field when present and the fetched track
text when that fetch succeeds) and the session name. -/
structure PanoptoDelivery where
  captions : List (Option String × Option String)
  sessionName : Option String
deriving DecidableEq

/-- The observable outcomes of the network interaction inside
get_panopto_transcript: a raised exception, the response status, and the
parsed delivery (none when parsing raises ValueError or KeyError). -/
structure PanoptoEnv where
  raised : Option String
  responseOk : Bool
  delivery : Option PanoptoDelivery
deriving DecidableEq

/-- src/canvas_completer/content_extractor.py get_panopto_transcript:
return the first caption track that fetches, parsed as captions;
otherwise the captions-not-available placeholder naming the session, a
could-not-extract placeholder on a failed response or parse, and an
error placeholder when something raises. -/
def get_panopto_transcript (env : PanoptoEnv) : String :=
  match env.raised with
  | some e => "[Panopto video - error: " ++ e ++ "]"
  | none =>
    if env.responseOk then
      match env.delivery with
      | some delivery =>
        match delivery.captions.findSome? (fun cap =>
            match cap with
            | (some _, some text) => some text
            | _ => none) with
        | some text => parse_caption_file text
        | none =>
          "[Panopto Video: " ++ delivery.sessionName.getD "Panopto Video" ++
            "]\n[Captions not available or require authentication]"
      | none => "[Panopto video - could not extract transcript]"
    else "[Panopto video - could not extract transcript]"

/-- src/canvas_completer/content_extractor.py get_youtube_transcript:
join the transcript segments with spaces, or the could-not-extract
placeholder when the transcript api raises. -/
def get_youtube_transcript (result : Except String (List String)) : String :=
  match result with
  | Except.ok segments => String.mk (joinWith " ".data (segments.map String.data))
  | Except.error e => "[Could not extract transcript: " ++ e ++ "]"

/-! ## Zip extraction -/

/-- Basename of a slash-separated path. -/
def basenameCh (l : List Char) : List Char :=
  (l.reverse.takeWhile (fun c => !(c == '/'))).reverse

/-- Extension of a path including the dot, empty when the basename has
no dot (the hidden-file edge of pathlib is not modelled). -/
def extSuffixCh (l : List Char) : List Char :=
  let b := basenameCh l
  let revAfter := b.reverse.takeWhile (fun c => !(c == '.'))
  if revAfter.length == b.length then []
  else '.' :: revAfter.reverse

/-- The code and config extensions inlined with fences. -/
def codeExts : List String :=
  [".py", ".r", ".ipynb", ".sql", ".js", ".java", ".cpp", ".c", ".h",
   ".sh", ".bat", ".ps1", ".yml", ".yaml"]

/-- Extensionless code file names matched by basename. -/
def specialCodeNames : List String := ["dockerfile", "makefile", "rakefile"]

/-- The text and config extensions inlined verbatim. -/
def textExts : List String :=
  [".txt", ".md", ".csv", ".json", ".xml", ".html", ".rst", ".cfg", ".ini", ".toml"]

/-- One archive entry together with the outcomes of the disk operations
performed on it: the per-entry extraction error when the extract call
raises, whether the later open raises, the text obtained when it is read
with invalid bytes ignored, and the page outcomes when the extracted
file is run through the PDF reader. -/
structure ZipEntry where
  filename : String
  isDir : Bool
  extractError : Option String
  readError : Bool
  fileText : String
  pdfPages : Except String (List (Except String String))

/-- Per-entry processing of the extraction loop: the entry line recorded
in the file listing and the optional inlined content block. -/
def processZipEntry (e : ZipEntry) : Option (String × Option String) :=
  if e.isDir then none
  else
    match e.extractError with
    | some err => some (e.filename ++ " (extraction failed: " ++ err ++ ")", none)
    | none =>
      let fl := lowerCh e.filename.data
      if listEndsWith ".pdf".data fl then
        let pdf_text := extract_pdf_text_from_path e.pdfPages
        if !(listStartsWith "[Could not".data pdf_text.data) then
          some (e.filename, some ("### " ++ e.filename ++ "\n\n" ++ pdf_text))
        else some (e.filename, none)
      else if codeExts.any (fun x => listEndsWith x.data fl) ||
          specialCodeNames.any (fun x => basenameCh fl == x.data) then
        if e.readError then some (e.filename, none)
        else if e.fileText.data.length < 50000 then
          let sfx := extSuffixCh e.filename.data
          let ext := if sfx.isEmpty then "text".data else sfx.drop 1
          some (e.filename, some ("### " ++ e.filename ++ "\n\n```" ++ String.mk ext ++
            "\n" ++ e.fileText ++ "\n```"))
        else some (e.filename, none)
      else if textExts.any (fun x => listEndsWith x.data fl) then
        if e.readError then some (e.filename, none)
        else if e.fileText.data.length < 50000 then
          some (e.filename, some ("### " ++ e.filename ++ "\n\n" ++ e.fileText))
        else some (e.filename, none)
      else some (e.filename, none)

/-- src/canvas_completer/content_extractor.py extract_zip_contents:
check the zip magic and the HTML disambiguation, then extract entries
(an error of none stands for the BadZipFile case, an error with text for
any other exception of the archive walk) and build the manifest with the
capped listing and the inlined blocks. -/
def extract_zip_contents (zipBytes : String) (extractDir : String)
    (archive : Except (Option String) (List ZipEntry)) : String :=
  if !(listStartsWith "PK".data zipBytes.data) then
    if containsHtmlMarker (lowerCh (zipBytes.data.take 1000)) then
      "[Could not extract zip: received HTML instead of zip file - authentication may have failed]"
    else "[Could not extract zip: file does not appear to be a valid zip file]"
  else
    match archive with
    | Except.error none => "[Could not extract: Invalid zip file]"
    | Except.error (some e) => "[Could not extract zip: " ++ e ++ "]"
    | Except.ok entries =>
      let items := entries.filterMap processZipEntry
      let files_list := items.map (fun p => p.1)
      let extracted_content := items.filterMap (fun p => p.2)
      let listing := String.join ((files_list.take 20).map (fun f => "- " ++ f ++ "\n"))
      let moreLine :=
        if files_list.length > 20 then
          "- ... and " ++ toString (files_list.length - 20) ++ " more files\n"
        else ""
      let base := "**Extracted " ++ toString files_list.length ++ " files:**\n" ++
        listing ++ moreLine ++ "\n**Location:** " ++ extractDir ++ "\n"
      if !extracted_content.isEmpty then
        base ++ "\n---\n\n" ++
          String.mk (joinWith "\n\n---\n\n".data (extracted_content.map String.data))
      else base

/-! ## Module-item normalizer -/

/-- One module item payload, reduced to the fields the normalizer
reads; a missing field is none. -/
structure ModuleItem where
  type : Option String
  title : Option String
  url : Option String
  html_url : Option String
  external_url : Option String
  filename : Option String
  download_url : Option String
  body : Option String
deriving DecidableEq

/-- The normalized record the normalizer returns. -/
structure ItemContent where
  title : String
  type : String
  url : Option String
  content : Option String
  extracted : Bool
  video_id : Option String
  local_path : Option String
  extracted_to : Option String
deriving DecidableEq

/-- Pythonic or of two optional strings: the first when it is a
non-empty string, else the second. -/
def truthyOr (a b : Option String) : Option String :=
  match a with
  | some s => if s.data.isEmpty then b else some s
  | none => b

/-- Pythonic truthiness of an optional string. -/
def optTruthy (o : Option String) : Bool :=
  match o with
  | some s => !s.data.isEmpty
  | none => false

/-- The outcomes of every effect the normalizer can perform, one oracle
per call site: transcripts, downloads, page parses, the metadata
round-trip of the file branch (outer error when the fetch raises, inner
none when the response is not ok, else the url and filename fields), the
archive walk, and the ambient download directory and page capability. -/
structure ItemEnv where
  youtube : Except String (List String)
  panopto : PanoptoEnv
  pdfDownload : Except String String
  pdfPages : Except String (List (Except String String))
  webpage : FetchResult
  pagePresent : Bool
  metaFetch : Except String (Option (Option String × Option String))
  fileDownload : Except String String
  filePdfPages : Except String (List (Except String String))
  zipArchive : Except (Option String) (List ZipEntry)
  downloadDir : Option String

/-- src/canvas_completer/content_extractor.py process_module_item: the
variant dispatch over page, external-url, file and external-tool items;
an exception escaping the function (the urlparse of the classifier or of
the id extractors) is the error case. -/
def process_module_item (item : ModuleItem) (env : ItemEnv) : Except String ItemContent :=
  let item_type := String.mk (lowerCh ((item.type.getD "").data))
  let base : ItemContent := {
    title := item.title.getD "Untitled"
    type := item_type
    url := truthyOr item.url (truthyOr item.html_url item.external_url)
    content := none
    extracted := false
    video_id := none
    local_path := none
    extracted_to := none }
  if item_type == "page" then
    Except.ok { base with
      content := some (item.body.getD "[Page content not loaded]")
      extracted := optTruthy item.body }
  else if item_type == "externalurl" then
    let external_url := item.external_url.getD ""
    let base := { base with url := some external_url }
    match identify_content_type external_url with
    | Except.error e => Except.error e
    | Except.ok ctype =>
      if ctype == "youtube" then
        match extract_youtube_id external_url with
        | Except.error e => Except.error e
        | Except.ok vid? =>
          if optTruthy vid? then
            let c := get_youtube_transcript env.youtube
            Except.ok { base with
              content := some c,
              extracted := !(listStartsWith "[Could not".data c.data),
              video_id := vid? }
          else Except.ok base
      else if ctype == "panopto" then
        match extract_panopto_id external_url with
        | Except.error e => Except.error e
        | Except.ok (some (vid, _)) =>
          let c := get_panopto_transcript env.panopto
          Except.ok { base with
            content := some c,
            extracted := !(listStartsWith "[Panopto video".data c.data),
            video_id := some vid }
        | Except.ok none =>
          Except.ok { base with
            content := some ("[Panopto video: " ++ external_url ++ "]") }
      else if ctype == "pdf" then
        match env.pdfDownload with
        | Except.error e =>
          Except.ok { base with
            content := some ("[Could not download PDF: " ++ e ++ "]") }
        | Except.ok _pdfBytes =>
          let c := extract_pdf_text _pdfBytes env.pdfPages
          let withContent := { base with
            content := some c,
            extracted := !(listStartsWith "[Could not".data c.data) }
          match env.downloadDir with
          | some dir =>
            let seg := (splitAllCh '/' external_url.data).reverse.headD []
            let beforeQ := (splitAllCh '?' seg).headD []
            let pdf_filename :=
              if listEndsWith ".pdf".data beforeQ then String.mk beforeQ
              else (item.title.getD "document") ++ ".pdf"
            Except.ok { withContent with local_path := some (dir ++ "/" ++ pdf_filename) }
          | none => Except.ok withContent
      else
        let c := extract_webpage_content env.webpage
        Except.ok { base with
          content := some c,
          extracted := !(listStartsWith "[Could not".data c.data) }
  else if item_type == "file" then
    let file_url := item.url.getD ""
    let fn0 := item.filename.getD ""
    let filename0 := if fn0.data.isEmpty then item.title.getD "unknown" else fn0
    match env.downloadDir with
    | some dir =>
      let resolved : Except String (Option String × String) :=
        if !(optTruthy item.download_url) && !file_url.data.isEmpty && env.pagePresent then
          match env.metaFetch with
          | Except.error e => Except.error e
          | Except.ok none => Except.ok (item.download_url, filename0)
          | Except.ok (some (u, f)) => Except.ok (u, f.getD filename0)
        else Except.ok (item.download_url, filename0)
      match resolved with
      | Except.error e =>
        Except.ok { base with
          content := some ("[Could not download file: " ++ e ++ "]") }
      | Except.ok (du, filename) =>
        if optTruthy du then
          match env.fileDownload with
          | Except.error e =>
            Except.ok { base with
              content := some ("[Could not download file: " ++ e ++ "]") }
          | Except.ok fileBytes =>
            let local_path := dir ++ "/" ++ filename
            let fl := lowerCh filename.data
            if listEndsWith ".pdf".data fl then
              let c := extract_pdf_text fileBytes env.filePdfPages
              Except.ok { base with
                content := some c,
                extracted := !(listStartsWith "[Could not".data c.data),
                local_path := some local_path }
            else if listEndsWith ".zip".data fl then
              let zipDir := dir ++ "/" ++
                String.mk (replaceAllCh ".zip".data [] filename.data)
              let c := extract_zip_contents fileBytes zipDir env.zipArchive
              Except.ok { base with
                content := some c,
                extracted := !(listStartsWith "[Could not".data c.data),
                local_path := some local_path,
                extracted_to := some zipDir }
            else
              Except.ok { base with
                content := some ("[File saved: " ++ filename ++ "]"),
                extracted := true, local_path := some local_path }
        else
          Except.ok { base with
            content := some ("[File: " ++ filename ++ " - could not get download URL]") }
    | none =>
      Except.ok { base with
        content := some ("[File: " ++ filename0 ++ " - sync with browser to download]") }
  else if item_type == "externaltool" then
    let tool_url :=
      match truthyOr item.external_url item.url with
      | some s => s
      | none => ""
    let title := item.title.getD "External Tool"
    if containsSub "panopto".data (lowerCh tool_url.data) then
      match extract_panopto_id tool_url with
      | Except.error e => Except.error e
      | Except.ok (some (vid, _)) =>
        let c := get_panopto_transcript env.panopto
        Except.ok { base with
          content := some c,
          extracted := !(listStartsWith "[Panopto video".data c.data),
          video_id := some vid, url := some tool_url }
      | Except.ok none =>
        Except.ok { base with
          content := some ("[Panopto video: " ++ title ++ "]\nURL: " ++ tool_url ++
            "\n[Open in Canvas to view]") }
    else if containsSub "kaltura".data (lowerCh tool_url.data) then
      Except.ok { base with
        content := some ("[Kaltura video: " ++ title ++
          "]\n[Video transcripts not supported - open in Canvas to view]") }
    else
      let withC := { base with
        content := some ("[External tool: " ++ title ++
          "]\n[May require manual access in Canvas]") }
      if tool_url.data.isEmpty then Except.ok withC
      else Except.ok { withC with url := some tool_url }
  else Except.ok base

/-- The module item exhibiting the extracted-flag slip: an external-url
Panopto video whose delivery parses but exposes no caption track. -/
def panoptoBugItem : ModuleItem :=
  { type := some "ExternalUrl"
    title := some "Lecture 1"
    url := none
    html_url := none
    external_url := some "https://uni.hosted.panopto.com/Panopto/Pages/Viewer.aspx?id=abc-123"
    filename := none
    download_url := none
    body := none }

/-- The environment of that run: the delivery request succeeds and
parses with an empty caption list and a session name. -/
def panoptoBugEnv : ItemEnv :=
  { youtube := Except.error "unused"
    panopto := { raised := none, responseOk := true,
                 delivery := some { captions := [], sessionName := some "Week 1 Lecture" } }
    pdfDownload := Except.error "unused"
    pdfPages := Except.error "unused"
    webpage := FetchResult.exn "unused"
    pagePresent := false
    metaFetch := Except.error "unused"
    fileDownload := Except.error "unused"
    filePdfPages := Except.error "unused"
    zipArchive := Except.error none
    downloadDir := none }

/-! ## Submission directory, detection cache and state machine -/

/-- The parsed content of an ai_check JSON cache file
(src/canvas_completer/ai_detector.py): the per-file content hashes and
the per-service results, keeping only the score field that the state
machine reads.  Insertion order of the JSON objects is preserved. -/
structure CacheJson where
  fileHashes : List (String × String)
  services : List (String × Option ℚ)
deriving DecidableEq

/-- Content of one file in a submission directory.  Markdown files carry
their text; files read as JSON carry their parse result, none standing
for an unreadable or empty JSON document. -/
inductive FileData where
  | text (s : String)
  | jsonCache (c : Option CacheJson)
deriving DecidableEq

/-- One directory entry: a file name and its content. -/
structure FsFile where
  name : String
  data : FileData
deriving DecidableEq

/-- A submission directory: whether it exists, and its files. -/
structure SubmissionFs where
  dirExists : Bool
  files : List FsFile
deriving DecidableEq

/-- Look a file up by name; a missing directory has no files. -/
def findFile (fs : SubmissionFs) (n : String) : Option FsFile :=
  if fs.dirExists then fs.files.find? (fun f => f.name == n) else none

/-- Read a file as text (open + read in the source). -/
def readText (fs : SubmissionFs) (n : String) : Option String :=
  match findFile fs n with
  | some ⟨_, FileData.text s⟩ => some s
  | _ => none

/-- Read a file as JSON: none when the file is absent, some none when it
exists but does not parse, some (some c) when it parses. -/
def readCacheFile (fs : SubmissionFs) (n : String) : Option (Option CacheJson) :=
  match findFile fs n with
  | some ⟨_, FileData.jsonCache c⟩ => some c
  | some ⟨_, FileData.text _⟩ => some none
  | none => none

/-- src/canvas_completer/ai_detector.py load_cached_results: return the
parsed ai_check.json, or nothing when the file is absent or unreadable. -/
def load_cached_results (fs : SubmissionFs) : Option CacheJson :=
  match readCacheFile fs "ai_check.json" with
  | some (some c) => some c
  | _ => none

/-- First value stored under a key in an association list (Python dict
get on a dict built in insertion order). -/
def lookupStr {α : Type} (l : List (String × α)) (k : String) : Option α :=
  (l.find? (fun p => p.1 == k)).map (fun p => p.2)

/-- src/canvas_completer/ai_detector.py needs_recheck, parameterised by
the content digest used by get_text_hash: true when no cache loads, or
when some existing file among draft.md and final.md has a current hash
different from the hash recorded in the cache under its name. -/
def needs_recheck (hash : String → String) (fs : SubmissionFs) : Bool :=
  match load_cached_results fs with
  | none => true
  | some cached =>
    ["draft.md", "final.md"].any (fun filename =>
      match readText fs filename with
      | none => false
      | some content =>
        !(lookupStr cached.fileHashes filename == some (hash content)))

/-- The needs_recheck behaviour the spec describes, following the words
of the spec: stale exactly when no cache exists or the stored hash for
the active source file (final.md if present else draft.md) differs from
the hash of that file content. -/
def spec_needs_recheck (hash : String → String) (fs : SubmissionFs) : Bool :=
  match load_cached_results fs with
  | none => true
  | some cached =>
    match (if (readText fs "final.md").isSome then readText fs "final.md" |>.map (fun c => ("final.md", c))
           else readText fs "draft.md" |>.map (fun c => ("draft.md", c))) with
    | none => false
    | some (fname, content) =>
      !(lookupStr cached.fileHashes fname == some (hash content))

/-- The eight named workflow states of the submission state machine
(src/main.py get_submission_status); only six are ever returned. -/
inductive SubStatus where
  | not_started
  | work_started
  | draft_in_progress
  | final_ready
  | ai_high
  | ready_to_submit
deriving DecidableEq

/-- First service entry carrying a non-null score, in insertion order
(the loop with break over cached services in get_submission_status). -/
def firstServiceScore : List (String × Option ℚ) → Option ℚ
  | [] => none
  | (_, some s) :: _ => some s
  | (_, none) :: rest => firstServiceScore rest

/-- The main cached AI score: read ai_check.json if it exists, take the
first non-null service score; unreadable JSON leaves the score empty. -/
def readMainAiScore (fs : SubmissionFs) : Option ℚ :=
  match readCacheFile fs "ai_check.json" with
  | some (some cached) => firstServiceScore cached.services
  | _ => none

/-- Cache file name for a humanized variant, mirroring the replace of
".md" by the empty string in the source. -/
def humanizedCacheName (n : String) : String :=
  "ai_check_" ++ String.mk (replaceAllCh ".md".data [] n.data) ++ ".json"

/-- The humanized cached score: the first of final_humanized.md and
draft_humanized.md that is present decides (the loop breaks there); its
cache file, when present and readable, yields the first non-null score. -/
def readHumanizedScore (fs : SubmissionFs) : Option ℚ :=
  match ["final_humanized.md", "draft_humanized.md"].find?
      (fun n => (if fs.dirExists then fs.files.map (fun f => f.name) else []).contains n) with
  | none => none
  | some n =>
    match readCacheFile fs (humanizedCacheName n) with
    | some (some c) => firstServiceScore c.services
    | _ => none

/-- The triple returned by get_submission_status: the status, the listed
files (when listed) and the score pair (main, humanized) when computed. -/
structure StatusResult where
  status : SubStatus
  files : Option (List FsFile)
  scores : Option (Option ℚ × Option ℚ)
deriving DecidableEq

/-- src/main.py get_submission_status: derive the workflow state of a
submission directory from its files and cached detection scores. -/
def get_submission_status (fs : SubmissionFs) : StatusResult :=
  if !fs.dirExists then ⟨SubStatus.not_started, none, none⟩
  else
    let files := fs.files
    let file_names := files.map (fun f => f.name)
    if !(file_names.contains "final.md") then
      if file_names.contains "draft.md" then ⟨SubStatus.draft_in_progress, some files, none⟩
      else if !files.isEmpty then ⟨SubStatus.work_started, some files, none⟩
      else ⟨SubStatus.not_started, none, none⟩
    else
      let ai_score := readMainAiScore fs
      let humanized_score := readHumanizedScore fs
      let scores := some (ai_score, humanized_score)
      match ai_score with
      | none => ⟨SubStatus.final_ready, some files, scores⟩
      | some a =>
        match humanized_score with
        | some h =>
          if h < 30 then ⟨SubStatus.ready_to_submit, some files, scores⟩
          else ⟨SubStatus.ai_high, some files, scores⟩
        | none =>
          if a < 30 then ⟨SubStatus.ready_to_submit, some files, scores⟩
          else ⟨SubStatus.ai_high, some files, scores⟩

/-- A concrete submission directory whose cache is stale: final.md holds
newtext while the cache records a different hash, yet still carries a
score of 45. -/
def staleCacheFs : SubmissionFs :=
  ⟨true, [⟨"final.md", FileData.text "newtext"⟩,
          ⟨"ai_check.json", FileData.jsonCache
            (some ⟨[("final.md", "stalehash")], [("zerogpt", some 45)]⟩)⟩]⟩

/-! ## Assignment metadata flags -/

/-- The submission object nested in an assignment payload, reduced to
the fields the metadata derivation reads. -/
structure SubmissionJson where
  workflow_state : Option String
deriving DecidableEq

/-- The metadata fields derived from the workflow state by
src/canvas_browser.py save_assignment_data. -/
structure SubmissionFlags where
  has_submitted : Bool
  is_graded : Bool
  workflow_state : String
deriving DecidableEq

/-- The workflow-state and flag derivation of save_assignment_data: a
missing or null submission object defaults the state to unsubmitted,
has_submitted holds for submitted, graded and pending_review, and
is_graded for graded exactly. -/
def save_assignment_flags (submission : Option SubmissionJson) : SubmissionFlags :=
  let workflow_state :=
    match submission with
    | none => "unsubmitted"
    | some s => s.workflow_state.getD "unsubmitted"
  { has_submitted := ["submitted", "graded", "pending_review"].contains workflow_state
    is_graded := workflow_state == "graded"
    workflow_state := workflow_state }

theorem mem_collapseSpaceRuns :
    ∀ (b : Bool) (l : List Char) (c : Char),
      c ∈ collapseSpaceRuns b l → c = '_' ∨ c ∈ l := by
  intro b l
  induction l generalizing b with
  | nil => intro c h; simp [collapseSpaceRuns] at h
  | cons a rest ih =>
    intro c h
    unfold collapseSpaceRuns at h
    split at h
    · rw [List.mem_append] at h
      rcases h with h | h
      · cases b with
        | true => simp at h
        | false =>
          simp only [if_neg (by simp : ¬ (false = true)), List.mem_singleton] at h
          exact Or.inl h
      · rcases ih true c h with h1 | h1
        · exact Or.inl h1
        · exact Or.inr (List.mem_cons_of_mem a h1)
    · rcases List.mem_cons.mp h with h1 | h1
      · exact Or.inr (h1 ▸ List.mem_cons_self a rest)
      · rcases ih false c h1 with h2 | h2
        · exact Or.inl h2
        · exact Or.inr (List.mem_cons_of_mem a h2)

theorem mem_dropTrailing (p : Char → Bool) :
    ∀ (l : List Char) (c : Char), c ∈ dropTrailing p l → c ∈ l := by
  intro l
  induction l with
  | nil => intro c h; simp [dropTrailing] at h
  | cons a rest ih =>
    intro c h
    unfold dropTrailing at h
    cases hr : dropTrailing p rest with
    | nil =>
      rw [hr] at h
      by_cases hp : p a
      · simp [hp] at h
      · simp [hp] at h
        exact h ▸ List.mem_cons_self a rest
    | cons x xs =>
      rw [hr] at h
      rcases List.mem_cons.mp h with h1 | h1
      · exact h1 ▸ List.mem_cons_self a rest
      · exact List.mem_cons_of_mem a (ih c (hr ▸ h1))

theorem head?_dropWhile_not (p : Char → Bool) :
    ∀ (l : List Char) (c : Char), (l.dropWhile p).head? = some c → p c = false := by
  intro l
  induction l with
  | nil => intro c h; simp [List.dropWhile] at h
  | cons a rest ih =>
    intro c h
    rw [List.dropWhile_cons] at h
    by_cases hp : p a
    · exact ih c (by simpa [hp] using h)
    · simp [hp] at h
      rw [← h]
      exact Bool.not_eq_true (p a) ▸ hp

theorem head?_dropTrailing (p : Char → Bool) :
    ∀ (l : List Char) (c : Char), (dropTrailing p l).head? = some c → l.head? = some c := by
  intro l
  induction l with
  | nil => intro c h; simp [dropTrailing] at h
  | cons a rest _ =>
    intro c h
    unfold dropTrailing at h
    cases hr : dropTrailing p rest with
    | nil =>
      rw [hr] at h
      by_cases hp : p a
      · simp [hp] at h
      · simp [hp] at h; simp [h]
    | cons x xs =>
      rw [hr] at h
      simp at h
      simp [h]

theorem getLast?_dropTrailing (p : Char → Bool) :
    ∀ (l : List Char) (c : Char), (dropTrailing p l).getLast? = some c → p c = false := by
  intro l
  induction l with
  | nil => intro c h; simp [dropTrailing] at h
  | cons a rest ih =>
    intro c h
    unfold dropTrailing at h
    cases hr : dropTrailing p rest with
    | nil =>
      rw [hr] at h
      by_cases hp : p a
      · simp [hp] at h
      · simp [hp] at h
        rw [← h]
        exact Bool.not_eq_true (p a) ▸ hp
    | cons x xs =>
      rw [hr] at h
      rw [List.getLast?_cons_cons] at h
      exact ih c (hr ▸ h)

theorem head?_take_pos {α : Type} (l : List α) (n : ℕ) (hn : 0 < n) :
    (l.take n).head? = l.head? := by
  cases l with
  | nil => simp
  | cons a rest =>
    cases n with
    | zero => omega
    | succ m => simp [List.take_succ_cons]

/-- C5 counterexample: on the input made of ninetynine letters a followed
by an underscore and the letter b, sanitize_filename returns a string whose
last character is an underscore (the truncation to 100 characters happens
after the strip of edge dots and underscores and re-exposes one), so the
claimed property fails on this input. -/
theorem sanitize_filename_claim_false :
    sanitizeClaimB (String.mk (List.replicate 99 'a' ++ ['_', 'b'])) = false := by
  decide

/-- C5 (amended): for every string s, sanitize_filename s contains none of
the forbidden characters and has length at most 100 and does not begin
with a dot or an underscore; it is also guaranteed not to end with a dot
or an underscore whenever the stripped name is short enough that the
final truncation to 100 characters does not cut it. -/
theorem sanitize_filename_amended_props (s : String) :
    (∀ c ∈ (sanitize_filename s).data, isForbiddenChar c = false) ∧
    (sanitize_filename s).data.length ≤ 100 ∧
    (∀ c, (sanitize_filename s).data.head? = some c → isEdgeChar c = false) ∧
    ((sanitizedCore s).length ≤ 100 →
      ∀ c, (sanitize_filename s).data.getLast? = some c → isEdgeChar c = false) := by
  have hdata : (sanitize_filename s).data = (sanitizedCore s).take 100 := rfl
  refine ⟨?_, ?_, ?_, ?_⟩
  · intro c hc
    rw [hdata] at hc
    have h1 : c ∈ sanitizedCore s := List.mem_of_mem_take hc
    unfold sanitizedCore pyStripSet at h1
    have h2 := mem_dropTrailing isEdgeChar _ c h1
    have h3 : c ∈ collapseSpaceRuns false
        (s.data.filter (fun c => !(isForbiddenChar c))) :=
      (List.dropWhile_sublist isEdgeChar).mem h2
    rcases mem_collapseSpaceRuns false _ c h3 with h4 | h4
    · subst h4; decide
    · have h5 := List.of_mem_filter h4
      simpa using h5
  · rw [hdata, List.length_take]
    exact Nat.min_le_left _ _
  · intro c hc
    rw [hdata, head?_take_pos _ 100 (by omega)] at hc
    unfold sanitizedCore pyStripSet at hc
    exact head?_dropWhile_not isEdgeChar _ c (head?_dropTrailing isEdgeChar _ c hc)
  · intro hlen c hc
    rw [hdata, List.take_of_length_le hlen] at hc
    unfold sanitizedCore pyStripSet at hc
    exact getLast?_dropTrailing isEdgeChar _ c hc

/-- Witness for the amended C5 theorem at the concrete input "a b.". -/
theorem sanitize_filename_amended_props_witness :
    (sanitizedCore "a b.").length ≤ 100 ∧
    (∀ c, (sanitize_filename "a b.").data.getLast? = some c → isEdgeChar c = false) :=
  ⟨by decide, (sanitize_filename_amended_props "a b.").2.2.2 (by decide)⟩

/-- C1: the submission state machine reproduces the literal scenarios of
the spec: an empty existing directory yields not_started; a directory
with only draft.md yields draft_in_progress; a directory with final.md
and no cache file yields final_ready; a directory with final.md and a
cached score of 45 yields ai_high; adding final_humanized.md with its
own cached score 15 yields ready_to_submit; a directory with final.md
and cached score 10 yields ready_to_submit. -/
theorem submission_status_scenarios :
    (get_submission_status ⟨true, []⟩).status = SubStatus.not_started ∧
    (get_submission_status ⟨true,
      [⟨"draft.md", FileData.text "d"⟩]⟩).status = SubStatus.draft_in_progress ∧
    (get_submission_status ⟨true,
      [⟨"final.md", FileData.text "f"⟩]⟩).status = SubStatus.final_ready ∧
    (get_submission_status ⟨true,
      [⟨"final.md", FileData.text "f"⟩,
       ⟨"ai_check.json", FileData.jsonCache
         (some ⟨[("final.md", "hf")], [("zerogpt", some 45)]⟩)⟩]⟩).status
      = SubStatus.ai_high ∧
    (get_submission_status ⟨true,
      [⟨"final.md", FileData.text "f"⟩,
       ⟨"final_humanized.md", FileData.text "g"⟩,
       ⟨"ai_check.json", FileData.jsonCache
         (some ⟨[("final.md", "hf")], [("zerogpt", some 45)]⟩)⟩,
       ⟨"ai_check_final_humanized.json", FileData.jsonCache
         (some ⟨[("final_humanized.md", "hg")], [("zerogpt", some 15)]⟩)⟩]⟩).status
      = SubStatus.ready_to_submit ∧
    (get_submission_status ⟨true,
      [⟨"final.md", FileData.text "f"⟩,
       ⟨"ai_check.json", FileData.jsonCache
         (some ⟨[("final.md", "hf")], [("zerogpt", some 10)]⟩)⟩]⟩).status
      = SubStatus.ready_to_submit := by
  decide

/-- C3 counterexample: with the identity digest, a directory where
final.md matches its stored hash but draft.md was edited makes
needs_recheck return true, while the spec states the check considers
only the active source file final.md, whose hash matches, so the
spec-worded predicate is false there. -/
theorem needs_recheck_claim_false :
    needs_recheck id ⟨true,
      [⟨"final.md", FileData.text "F"⟩, ⟨"draft.md", FileData.text "D2"⟩,
       ⟨"ai_check.json", FileData.jsonCache
         (some ⟨[("draft.md", "D1"), ("final.md", "F")], []⟩)⟩]⟩ = true ∧
    spec_needs_recheck id ⟨true,
      [⟨"final.md", FileData.text "F"⟩, ⟨"draft.md", FileData.text "D2"⟩,
       ⟨"ai_check.json", FileData.jsonCache
         (some ⟨[("draft.md", "D1"), ("final.md", "F")], []⟩)⟩]⟩ = false := by
  decide

/-- C3 (amended): needs_recheck is true exactly when no cache loads, or
some file among draft.md and final.md exists whose current hash differs
from the hash stored in the cache under its filename — both files are
checked, not only the active one. -/
theorem needs_recheck_amended (hash : String → String) (fs : SubmissionFs) :
    needs_recheck hash fs = true ↔
      load_cached_results fs = none ∨
      ∃ cached, load_cached_results fs = some cached ∧
        ∃ fname ∈ ["draft.md", "final.md"], ∃ content,
          readText fs fname = some content ∧
          lookupStr cached.fileHashes fname ≠ some (hash content) := by
  unfold needs_recheck
  cases hload : load_cached_results fs with
  | none => simp
  | some cached =>
    simp only [List.any_eq_true, reduceCtorEq, false_or, Option.some.injEq]
    constructor
    · rintro ⟨fname, hmem, hp⟩
      refine ⟨cached, rfl, fname, hmem, ?_⟩
      cases hrt : readText fs fname with
      | none => rw [hrt] at hp; simp at hp
      | some content =>
        rw [hrt] at hp
        exact ⟨content, rfl, by simpa using hp⟩
    · rintro ⟨c, hc, fname, hmem, content, hrt, hne⟩
      refine ⟨fname, hmem, ?_⟩
      rw [hrt]
      subst hc
      simpa using hne

/-- Witness for the amended C3 theorem: an absent cache forces a
recheck at a concrete directory. -/
theorem needs_recheck_amended_witness :
    needs_recheck id ⟨true, [⟨"draft.md", FileData.text "d"⟩]⟩ = true ↔
      load_cached_results ⟨true, [⟨"draft.md", FileData.text "d"⟩]⟩ = none ∨
      ∃ cached, load_cached_results ⟨true, [⟨"draft.md", FileData.text "d"⟩]⟩ = some cached ∧
        ∃ fname ∈ ["draft.md", "final.md"], ∃ content,
          readText ⟨true, [⟨"draft.md", FileData.text "d"⟩]⟩ fname = some content ∧
          lookupStr cached.fileHashes fname ≠ some (id content) :=
  needs_recheck_amended id ⟨true, [⟨"draft.md", FileData.text "d"⟩]⟩

/-- C4 counterexample: a directory whose cache records a hash that does
not match the current content of final.md but still holds a score of 45
is classified ai_high, not final_ready — the state machine never
consults the recorded hashes. -/
theorem stale_cache_status_counterexample :
    readText staleCacheFs "final.md" = some "newtext" ∧
    lookupStr (CacheJson.mk [("final.md", "stalehash")]
      [("zerogpt", some 45)]).fileHashes "final.md" = some "stalehash" ∧
    load_cached_results staleCacheFs =
      some (CacheJson.mk [("final.md", "stalehash")] [("zerogpt", some 45)]) ∧
    "stalehash" ≠ id "newtext" ∧
    (get_submission_status staleCacheFs).status = SubStatus.ai_high ∧
    (get_submission_status staleCacheFs).status ≠ SubStatus.final_ready := by
  decide

/-- C4 (amended): when the directory exists and contains final.md, the
state machine returns final_ready exactly when no non-null service score
is readable from ai_check.json; the recorded content hashes play no part
in the decision. -/
theorem final_ready_iff_no_cached_score (fs : SubmissionFs)
    (hdir : fs.dirExists = true)
    (hfinal : (fs.files.map (fun f => f.name)).contains "final.md" = true) :
    ((get_submission_status fs).status = SubStatus.final_ready ↔
      readMainAiScore fs = none) := by
  unfold get_submission_status
  simp only [hdir, hfinal, Bool.not_true, Bool.false_eq_true, if_false]
  cases readMainAiScore fs with
  | none => simp
  | some a =>
    cases readHumanizedScore fs with
    | some h =>
      simp only [reduceCtorEq, iff_false]
      split <;> simp
    | none =>
      simp only [reduceCtorEq, iff_false]
      split <;> simp

/-- Witness for the amended C4 theorem at a concrete directory holding
only final.md. -/
theorem final_ready_iff_no_cached_score_witness :
    ((get_submission_status ⟨true, [⟨"final.md", FileData.text "f"⟩]⟩).status
        = SubStatus.final_ready ↔
      readMainAiScore ⟨true, [⟨"final.md", FileData.text "f"⟩]⟩ = none) :=
  final_ready_iff_no_cached_score ⟨true, [⟨"final.md", FileData.text "f"⟩]⟩
    (by decide) (by decide)

/-- C9: the metadata flags computed on sync satisfy the invariant:
has_submitted holds exactly when the workflow state is submitted, graded
or pending_review, and is_graded exactly when it is graded. -/
theorem save_assignment_flags_invariant (submission : Option SubmissionJson) :
    ((save_assignment_flags submission).has_submitted = true ↔
      (save_assignment_flags submission).workflow_state
        ∈ ["submitted", "graded", "pending_review"]) ∧
    ((save_assignment_flags submission).is_graded = true ↔
      (save_assignment_flags submission).workflow_state = "graded") := by
  unfold save_assignment_flags
  constructor
  · simp
  · simp

/-! ### pySub unfolding and identity lemmas -/

theorem pySubAux_skip (m : List Char → Option (List Char × Nat)) :
    ∀ (t : List Char) (k : Nat), pySubAux m k t = pySubAux m 0 (t.drop k) := by
  intro t
  induction t with
  | nil => intro k; cases k <;> rfl
  | cons c rest ih =>
    intro k
    cases k with
    | zero => rfl
    | succ j =>
      show pySubAux m j rest = _
      rw [ih j]
      rfl

theorem pySub_nil (m : List Char → Option (List Char × Nat)) : pySub m [] = [] := rfl

theorem pySub_cons_none (m : List Char → Option (List Char × Nat)) (c : Char)
    (rest : List Char) (h : m (c :: rest) = none) :
    pySub m (c :: rest) = c :: pySub m rest := by
  show pySubAux m 0 (c :: rest) = c :: pySubAux m 0 rest
  simp only [pySubAux]
  rw [h]

theorem pySub_cons_some (m : List Char → Option (List Char × Nat)) (c : Char)
    (rest rep : List Char) (n : Nat) (h : m (c :: rest) = some (rep, n))
    (hn : 1 ≤ n) :
    pySub m (c :: rest) = rep ++ pySub m ((c :: rest).drop n) := by
  show pySubAux m 0 (c :: rest) = _
  unfold pySubAux
  rw [h]
  show rep ++ pySubAux m (n - 1) rest = _
  rw [pySubAux_skip m rest (n - 1)]
  have hd : (c :: rest).drop n = rest.drop (n - 1) := by
    cases n with
    | zero => omega
    | succ j => simp
  rw [hd]
  rfl

theorem pySub_id_of_none (m : List Char → Option (List Char × Nat)) :
    ∀ s : List Char, (∀ c rest, (c :: rest) <:+ s → m (c :: rest) = none) →
      pySub m s = s := by
  intro s
  induction s with
  | nil => intro _; rfl
  | cons c rest ih =>
    intro h
    rw [pySub_cons_none m c rest (h c rest (List.suffix_refl _))]
    rw [ih (fun c2 rest2 hsuf => h c2 rest2 (hsuf.trans (List.suffix_cons c rest)))]

/-! ### Head-character lemmas for the tag matchers -/

theorem listStartsWith_cons_false {p c : Char} (ps cs : List Char) (h : ¬ p = c) :
    listStartsWith (p :: ps) (c :: cs) = false := by
  unfold listStartsWith
  rw [Bool.and_eq_false_iff]
  exact Or.inl (beq_eq_false_iff_ne.mpr h)

theorem matchWrapTag_head (tag pre post : List Char) (c : Char) (rest : List Char)
    (h : ¬ c = '<') : matchWrapTag tag pre post (c :: rest) = none := by
  unfold matchWrapTag
  rw [listStartsWith_cons_false tag rest (fun hx => h hx.symm)]
  rfl

theorem matchLink_head (c : Char) (rest : List Char) (h : ¬ c = '<') :
    matchLink (c :: rest) = none := by
  unfold matchLink
  rw [show "<a".data = '<' :: ['a'] from rfl,
    listStartsWith_cons_false ['a'] rest (fun hx => h hx.symm)]
  rfl

theorem matchOlUl_head (c : Char) (rest : List Char) (h : ¬ c = '<') :
    matchOlUl (c :: rest) = none := by
  unfold matchOlUl
  rw [show "<".data = '<' :: [] from rfl,
    listStartsWith_cons_false [] rest (fun hx => h hx.symm)]
  rfl

theorem matchDiv_head (c : Char) (rest : List Char) (h : ¬ c = '<') :
    matchDiv (c :: rest) = none := by
  unfold matchDiv
  rw [show "<".data = '<' :: [] from rfl,
    listStartsWith_cons_false [] rest (fun hx => h hx.symm)]
  rfl

theorem matchBr_head (c : Char) (rest : List Char) (h : ¬ c = '<') :
    matchBr (c :: rest) = none := by
  unfold matchBr
  rw [show "<br".data = '<' :: ['b', 'r'] from rfl,
    listStartsWith_cons_false ['b', 'r'] rest (fun hx => h hx.symm)]
  rfl

theorem matchStripTag_head (c : Char) (rest : List Char) (h : ¬ c = '<') :
    matchStripTag (c :: rest) = none := by
  unfold matchStripTag
  rw [show "<".data = '<' :: [] from rfl,
    listStartsWith_cons_false [] rest (fun hx => h hx.symm)]
  rfl

/-- A substitution whose matcher only fires at an opening angle bracket
leaves a bracket-free string unchanged. -/
theorem pySub_id_of_no_bracket (m : List Char → Option (List Char × Nat))
    (hm : ∀ c rest, ¬ c = '<' → m (c :: rest) = none)
    (s : List Char) (hs : '<' ∉ s) : pySub m s = s := by
  refine pySub_id_of_none m s (fun c rest hsuf => hm c rest (fun hc => hs ?_))
  exact hsuf.subset (hc ▸ List.mem_cons_self c rest)

theorem pyUnescape_id (s : List Char) (hs : '&' ∉ s) : pyUnescape s = s := by
  induction s with
  | nil => rfl
  | cons c rest ih =>
    show pyUnescapeAux 0 (c :: rest) = c :: rest
    have hc : (c == '&') = false :=
      beq_eq_false_iff_ne.mpr (fun hx => hs (hx ▸ List.mem_cons_self c rest))
    unfold pyUnescapeAux
    rw [hc]
    show c :: pyUnescapeAux 0 rest = c :: rest
    rw [show pyUnescapeAux 0 rest = pyUnescape rest from rfl,
      ih (fun hx => hs (List.mem_cons_of_mem c hx))]

/-! ### Newline-run analysis for the collapse substitution -/

theorem lnr_cons_newline (rest : List Char) : lnr ('\n' :: rest) = lnr rest + 1 := by
  unfold lnr
  rw [List.takeWhile_cons]
  simp

theorem lnr_cons_other (c : Char) (rest : List Char) (h : ¬ c = '\n') :
    lnr (c :: rest) = 0 := by
  unfold lnr
  rw [List.takeWhile_cons, beq_eq_false_iff_ne.mpr h]
  rfl

theorem sw_newlines_iff : ∀ (k : Nat) (l : List Char),
    listStartsWith (List.replicate k '\n') l = true ↔ k ≤ lnr l := by
  intro k
  induction k with
  | zero => intro l; simp [listStartsWith]
  | succ j ih =>
    intro l
    rw [List.replicate_succ]
    cases l with
    | nil =>
      constructor
      · intro h; simp [listStartsWith] at h
      · intro h; simp [lnr] at h
    | cons c rest =>
      by_cases hc : c = '\n'
      · subst hc
        rw [lnr_cons_newline]
        unfold listStartsWith
        rw [Bool.and_eq_true]
        constructor
        · rintro ⟨_, hsw⟩; have := (ih rest).mp hsw; omega
        · intro h
          exact ⟨rfl, (ih rest).mpr (by omega)⟩
      · rw [lnr_cons_other c rest hc,
          listStartsWith_cons_false (List.replicate j '\n') rest (fun hx => hc hx.symm)]
        constructor
        · intro h; exact absurd h (by simp)
        · intro h; omega

theorem matchNewlines3_eq_none_iff (l : List Char) :
    matchNewlines3 l = none ↔ lnr l ≤ 2 := by
  unfold matchNewlines3
  rcases Nat.lt_or_ge (l.takeWhile (fun c => c == '\n')).length 3 with h | h
  · rw [if_neg (by omega)]
    unfold lnr
    simp
    omega
  · rw [if_pos (by omega)]
    unfold lnr
    simp
    omega

theorem matchNewlines3_eq_some (l rep : List Char) (n : Nat)
    (h : matchNewlines3 l = some (rep, n)) :
    rep = "\n\n".data ∧ n = lnr l ∧ 3 ≤ n := by
  unfold matchNewlines3 at h
  rcases Nat.lt_or_ge (l.takeWhile (fun c => c == '\n')).length 3 with hlt | hge
  · rw [if_neg (by omega)] at h
    exact absurd h (by simp)
  · rw [if_pos (by omega)] at h
    rw [Option.some.injEq, Prod.mk.injEq] at h
    exact ⟨h.1.symm, h.2.symm, by omega⟩

theorem lnr_drop_lnr (l : List Char) : lnr (l.drop (lnr l)) = 0 := by
  induction l with
  | nil => rfl
  | cons c rest ih =>
    by_cases hc : c = '\n'
    · subst hc
      rw [lnr_cons_newline, List.drop_succ_cons]
      exact ih
    · rw [lnr_cons_other c rest hc, List.drop_zero]
      exact lnr_cons_other c rest hc

/-- The collapse substitution leaves no run of three newlines and
bounds the leading newline run by two and by the leading run of the
input. -/
theorem collapse_noTriple_aux : ∀ (N : Nat) (s : List Char), s.length ≤ N →
    noTriple (pySub matchNewlines3 s) ∧
      lnr (pySub matchNewlines3 s) ≤ min 2 (lnr s) := by
  intro N
  induction N with
  | zero =>
    intro s hs
    have hnil : s = [] := List.eq_nil_of_length_eq_zero (by omega)
    subst hnil
    exact ⟨by unfold noTriple; decide, by decide⟩
  | succ N ih =>
    intro s hs
    cases s with
    | nil => exact ⟨by unfold noTriple; decide, by decide⟩
    | cons c rest =>
      cases hm : matchNewlines3 (c :: rest) with
      | none =>
        rw [pySub_cons_none _ c rest hm]
        have hrest := ih rest (by simp at hs; omega)
        have hlnr2 : lnr (c :: rest) ≤ 2 := (matchNewlines3_eq_none_iff _).mp hm
        by_cases hc : c = '\n'
        · subst hc
          have h1 : lnr ('\n' :: rest) = lnr rest + 1 := lnr_cons_newline rest
          have hrl : lnr rest ≤ 1 := by omega
          have hglnr : lnr (pySub matchNewlines3 rest) ≤ lnr rest := by
            have := hrest.2; omega
          constructor
          · show containsSub "\n\n\n".data ('\n' :: pySub matchNewlines3 rest) = false
            simp only [containsSub]
            rw [Bool.or_eq_false_iff]
            refine ⟨?_, hrest.1⟩
            cases hsw : listStartsWith "\n\n\n".data ('\n' :: pySub matchNewlines3 rest) with
            | false => rfl
            | true =>
              rw [show "\n\n\n".data = List.replicate 3 '\n' from rfl] at hsw
              have h3 := (sw_newlines_iff 3 _).mp hsw
              rw [lnr_cons_newline] at h3
              omega
          · rw [lnr_cons_newline]
            omega
        · constructor
          · show containsSub "\n\n\n".data (c :: pySub matchNewlines3 rest) = false
            simp only [containsSub]
            rw [Bool.or_eq_false_iff]
            refine ⟨?_, hrest.1⟩
            exact listStartsWith_cons_false _ _ (fun hx => hc hx.symm)
          · rw [lnr_cons_other c _ hc]
            exact Nat.zero_le _
      | some val =>
        obtain ⟨rep, n⟩ := val
        obtain ⟨hrep, hn, h3⟩ := matchNewlines3_eq_some _ _ _ hm
        rw [pySub_cons_some _ c rest rep n hm (by omega)]
        subst hrep
        have hlen : ((c :: rest).drop n).length ≤ N := by
          rw [List.length_drop]
          simp at hs ⊢
          omega
        have hind := ih ((c :: rest).drop n) hlen
        have hlnr0 : lnr ((c :: rest).drop n) = 0 := by
          rw [hn]; exact lnr_drop_lnr (c :: rest)
        have hg0 : lnr (pySub matchNewlines3 ((c :: rest).drop n)) = 0 := by
          have := hind.2; omega
        constructor
        · show containsSub "\n\n\n".data
            ('\n' :: '\n' :: pySub matchNewlines3 ((c :: rest).drop n)) = false
          simp only [containsSub]
          rw [Bool.or_eq_false_iff, Bool.or_eq_false_iff]
          refine ⟨?_, ?_, hind.1⟩
          · cases hsw : listStartsWith "\n\n\n".data
                ('\n' :: '\n' :: pySub matchNewlines3 ((c :: rest).drop n)) with
            | false => rfl
            | true =>
              rw [show "\n\n\n".data = List.replicate 3 '\n' from rfl] at hsw
              have hx := (sw_newlines_iff 3 _).mp hsw
              rw [lnr_cons_newline, lnr_cons_newline] at hx
              omega
          · cases hsw : listStartsWith "\n\n\n".data
                ('\n' :: pySub matchNewlines3 ((c :: rest).drop n)) with
            | false => rfl
            | true =>
              rw [show "\n\n\n".data = List.replicate 3 '\n' from rfl] at hsw
              have hx := (sw_newlines_iff 3 _).mp hsw
              rw [lnr_cons_newline] at hx
              omega
        · show lnr ('\n' :: '\n' :: pySub matchNewlines3 ((c :: rest).drop n)) ≤ _
          rw [lnr_cons_newline, lnr_cons_newline, hg0]
          omega

theorem containsSub_nil_pat : ∀ v : List Char, containsSub [] v = true := by
  intro v
  cases v <;> simp [containsSub, listStartsWith]

theorem listStartsWith_append (pat : List Char) :
    ∀ (u v : List Char), listStartsWith pat u = true →
      listStartsWith pat (u ++ v) = true := by
  induction pat with
  | nil => intro u v _; rfl
  | cons p ps ih =>
    intro u v h
    cases u with
    | nil => exact absurd h (by simp [listStartsWith])
    | cons c cs =>
      rw [List.cons_append]
      simp only [listStartsWith] at h ⊢
      rw [Bool.and_eq_true] at h ⊢
      exact ⟨h.1, ih cs v h.2⟩

theorem containsSub_append_right (pat : List Char) :
    ∀ (u v : List Char), containsSub pat u = true →
      containsSub pat (u ++ v) = true := by
  intro u
  induction u with
  | nil =>
    intro v h
    cases pat with
    | nil => exact containsSub_nil_pat v
    | cons p ps => exact absurd h (by simp [containsSub, listStartsWith])
  | cons c cs ih =>
    intro v h
    rw [List.cons_append]
    simp only [containsSub] at h ⊢
    rw [Bool.or_eq_true] at h ⊢
    rcases h with h | h
    · exact Or.inl (listStartsWith_append pat _ v h)
    · exact Or.inr (ih v h)

theorem containsSub_dropWhile (pat : List Char) (p : Char → Bool) :
    ∀ l : List Char, containsSub pat (l.dropWhile p) = true →
      containsSub pat l = true := by
  intro l
  induction l with
  | nil => intro h; simpa using h
  | cons c rest ih =>
    intro h
    rw [List.dropWhile_cons] at h
    by_cases hc : p c
    · rw [if_pos hc] at h
      simp only [containsSub]
      rw [Bool.or_eq_true]
      exact Or.inr (ih h)
    · rw [if_neg hc] at h
      exact h

theorem dropTrailing_append (p : Char → Bool) :
    ∀ l : List Char, ∃ v, dropTrailing p l ++ v = l := by
  intro l
  induction l with
  | nil => exact ⟨[], rfl⟩
  | cons a rest ih =>
    unfold dropTrailing
    cases hr : dropTrailing p rest with
    | nil =>
      by_cases hp : p a
      · rw [if_pos hp]
        exact ⟨a :: rest, rfl⟩
      · rw [if_neg hp]
        obtain ⟨v, hv⟩ := ih
        rw [hr] at hv
        exact ⟨rest, by simp⟩
    | cons x xs =>
      obtain ⟨v, hv⟩ := ih
      rw [hr] at hv
      exact ⟨v, by rw [List.cons_append, hv]⟩

theorem containsSub_pyStripSet (pat : List Char) (p : Char → Bool) (l : List Char)
    (h : containsSub pat (pyStripSet p l) = true) : containsSub pat l = true := by
  obtain ⟨v, hv⟩ := dropTrailing_append p (l.dropWhile p)
  apply containsSub_dropWhile pat p l
  rw [← hv]
  exact containsSub_append_right pat _ v h

theorem containsSub_of_suffix_sw (pat : List Char) :
    ∀ (s u : List Char), u <:+ s → listStartsWith pat u = true →
      containsSub pat s = true := by
  intro s
  induction s with
  | nil =>
    intro u hsuf hsw
    have : u = [] := List.suffix_nil.mp hsuf
    subst this
    exact hsw
  | cons c rest ih =>
    intro u hsuf hsw
    simp only [containsSub]
    rw [Bool.or_eq_true]
    rcases List.suffix_cons_iff.mp hsuf with h | h
    · subst h; exact Or.inl hsw
    · exact Or.inr (ih u h hsw)

/-- On a string with no triple newline the collapse substitution is the
identity. -/
theorem pySub_newlines_id (r : List Char) (h : noTriple r) :
    pySub matchNewlines3 r = r := by
  apply pySub_id_of_none
  intro c rest hsuf
  cases hm : matchNewlines3 (c :: rest) with
  | none => rfl
  | some val =>
    obtain ⟨rep, n⟩ := val
    obtain ⟨_, hn, h3⟩ := matchNewlines3_eq_some _ _ _ hm
    have hsw : listStartsWith (List.replicate 3 '\n') (c :: rest) = true :=
      (sw_newlines_iff 3 _).mpr (by omega)
    have hcs : containsSub "\n\n\n".data r = true :=
      containsSub_of_suffix_sw "\n\n\n".data r (c :: rest) hsuf
        (by rw [show "\n\n\n".data = List.replicate 3 '\n' from rfl]; exact hsw)
    unfold noTriple at h
    rw [h] at hcs
    exact absurd hcs (by simp)

theorem dropWhile_eq_self_of_head (p : Char → Bool) (l : List Char)
    (h : ∀ c, l.head? = some c → p c = false) : l.dropWhile p = l := by
  cases l with
  | nil => rfl
  | cons c rest =>
    rw [List.dropWhile_cons, h c rfl]
    simp

theorem dropTrailing_eq_self_of_getLast (p : Char → Bool) :
    ∀ l : List Char, (∀ c, l.getLast? = some c → p c = false) →
      dropTrailing p l = l := by
  intro l
  induction l with
  | nil => intro _; rfl
  | cons a rest ih =>
    intro h
    unfold dropTrailing
    cases hrest : rest with
    | nil =>
      subst hrest
      have hpa : p a = false := h a rfl
      simp [dropTrailing, hpa]
    | cons x xs =>
      subst hrest
      have hres : dropTrailing p (x :: xs) = x :: xs :=
        ih (fun c hc => h c (by rw [List.getLast?_cons_cons]; exact hc))
      rw [hres]

/-- Stripping is idempotent. -/
theorem pyStripSet_idem (p : Char → Bool) (l : List Char) :
    pyStripSet p (pyStripSet p l) = pyStripSet p l := by
  unfold pyStripSet
  have h1 : (dropTrailing p (l.dropWhile p)).dropWhile p =
      dropTrailing p (l.dropWhile p) := by
    apply dropWhile_eq_self_of_head
    intro c hc
    exact head?_dropWhile_not p l c (head?_dropTrailing p _ c hc)
  rw [h1]
  apply dropTrailing_eq_self_of_getLast
  intro c hc
  exact getLast?_dropTrailing p _ c hc

theorem mem_pySub_newlines_aux : ∀ (N : Nat) (s : List Char), s.length ≤ N →
    ∀ c, c ∈ pySub matchNewlines3 s → c = '\n' ∨ c ∈ s := by
  intro N
  induction N with
  | zero =>
    intro s hs c hc
    have hnil : s = [] := List.eq_nil_of_length_eq_zero (by omega)
    subst hnil
    simp [pySub_nil] at hc
  | succ N ih =>
    intro s hs c hc
    cases s with
    | nil => simp [pySub_nil] at hc
    | cons c0 rest =>
      cases hm : matchNewlines3 (c0 :: rest) with
      | none =>
        rw [pySub_cons_none _ c0 rest hm] at hc
        rcases List.mem_cons.mp hc with h | h
        · exact Or.inr (h ▸ List.mem_cons_self c0 rest)
        · rcases ih rest (by simp at hs; omega) c h with h1 | h1
          · exact Or.inl h1
          · exact Or.inr (List.mem_cons_of_mem c0 h1)
      | some val =>
        obtain ⟨rep, n⟩ := val
        obtain ⟨hrep, hn, h3⟩ := matchNewlines3_eq_some _ _ _ hm
        rw [pySub_cons_some _ c0 rest rep n hm (by omega), hrep] at hc
        rw [List.mem_append] at hc
        rcases hc with h | h
        · rcases List.mem_cons.mp h with h1 | h1
          · exact Or.inl h1
          · rcases List.mem_cons.mp h1 with h2 | h2
            · exact Or.inl h2
            · simp at h2
        · have hlen : ((c0 :: rest).drop n).length ≤ N := by
            rw [List.length_drop]
            simp at hs ⊢
            omega
          rcases ih ((c0 :: rest).drop n) hlen c h with h1 | h1
          · exact Or.inl h1
          · exact Or.inr (List.mem_of_mem_drop h1)

theorem mem_pyStripSet (p : Char → Bool) (l : List Char) (c : Char)
    (h : c ∈ pyStripSet p l) : c ∈ l :=
  (List.dropWhile_sublist p).mem (mem_dropTrailing p _ c h)

/-- On input free of angle brackets and ampersands, every tag
substitution and the entity decoding are the identity, so the converter
reduces to newline collapsing followed by the outer strip. -/
theorem html_pipeline_reduce (x : String) (hlt : '<' ∉ x.data) (hamp : '&' ∉ x.data) :
    html_to_markdown x =
      String.mk (pyStripSet isPySpace (pySub matchNewlines3 x.data)) := by
  unfold html_to_markdown
  by_cases hx : x.data.isEmpty
  · rw [if_pos hx]
    have hnil : x.data = [] := List.isEmpty_iff.mp hx
    rw [hnil]
    rfl
  · rw [if_neg hx]
    have e1 := pySub_id_of_no_bracket (matchWrapTag "h1".data "# ".data "\n".data)
      (fun c r hc => matchWrapTag_head _ _ _ c r hc) x.data hlt
    have e2 := pySub_id_of_no_bracket (matchWrapTag "h2".data "## ".data "\n".data)
      (fun c r hc => matchWrapTag_head _ _ _ c r hc) x.data hlt
    have e3 := pySub_id_of_no_bracket (matchWrapTag "h3".data "### ".data "\n".data)
      (fun c r hc => matchWrapTag_head _ _ _ c r hc) x.data hlt
    have e4 := pySub_id_of_no_bracket (matchWrapTag "h4".data "#### ".data "\n".data)
      (fun c r hc => matchWrapTag_head _ _ _ c r hc) x.data hlt
    have e5 := pySub_id_of_no_bracket (matchWrapTag "strong".data "**".data "**".data)
      (fun c r hc => matchWrapTag_head _ _ _ c r hc) x.data hlt
    have e6 := pySub_id_of_no_bracket (matchWrapTag "b".data "**".data "**".data)
      (fun c r hc => matchWrapTag_head _ _ _ c r hc) x.data hlt
    have e7 := pySub_id_of_no_bracket (matchWrapTag "em".data "*".data "*".data)
      (fun c r hc => matchWrapTag_head _ _ _ c r hc) x.data hlt
    have e8 := pySub_id_of_no_bracket (matchWrapTag "i".data "*".data "*".data)
      (fun c r hc => matchWrapTag_head _ _ _ c r hc) x.data hlt
    have e9 := pySub_id_of_no_bracket matchLink
      (fun c r hc => matchLink_head c r hc) x.data hlt
    have e10 := pySub_id_of_no_bracket (matchWrapTag "li".data "- ".data "\n".data)
      (fun c r hc => matchWrapTag_head _ _ _ c r hc) x.data hlt
    have e11 := pySub_id_of_no_bracket matchOlUl
      (fun c r hc => matchOlUl_head c r hc) x.data hlt
    have e12 := pySub_id_of_no_bracket (matchWrapTag "p".data [] "\n\n".data)
      (fun c r hc => matchWrapTag_head _ _ _ c r hc) x.data hlt
    have e13 := pySub_id_of_no_bracket matchBr
      (fun c r hc => matchBr_head c r hc) x.data hlt
    have e14 := pySub_id_of_no_bracket matchDiv
      (fun c r hc => matchDiv_head c r hc) x.data hlt
    have e15 := pySub_id_of_no_bracket matchStripTag
      (fun c r hc => matchStripTag_head c r hc) x.data hlt
    have e16 := pyUnescape_id x.data hamp
    simp only [e1, e2, e3, e4, e5, e6, e7, e8, e9, e10, e11, e12, e13, e14, e15, e16]

/-- C8 counterexample: the input of one doubly escaped ampersand entity
contains no angle bracket (so certainly no HTML tag), yet a second
application of html_to_markdown decodes it one step further, so the
converter is not idempotent on tag-free input. -/
theorem html_to_markdown_claim_false :
    containsSub "<".data "&amp;amp;".data = false ∧
    html_to_markdown "&amp;amp;" = "&amp;" ∧
    html_to_markdown (html_to_markdown "&amp;amp;") = "&" ∧
    html_to_markdown (html_to_markdown "&amp;amp;") ≠ html_to_markdown "&amp;amp;" := by
  exact ⟨by decide, by rfl, by rfl, by decide⟩

/-- C8 (amended): html_to_markdown maps the empty string to the empty
string, and it is idempotent on input containing neither an angle
bracket nor an ampersand (plain text without entity references); on
tag-free input holding entity references a second application can decode
further. -/
theorem html_to_markdown_amended :
    html_to_markdown "" = "" ∧
    ∀ x : String, '<' ∉ x.data → '&' ∉ x.data →
      html_to_markdown (html_to_markdown x) = html_to_markdown x := by
  refine ⟨rfl, ?_⟩
  intro x h1 h2
  rw [html_pipeline_reduce x h1 h2]
  have hrd : (String.mk (pyStripSet isPySpace (pySub matchNewlines3 x.data))).data =
      pyStripSet isPySpace (pySub matchNewlines3 x.data) := rfl
  have hmem : ∀ c, c ∈ pyStripSet isPySpace (pySub matchNewlines3 x.data) →
      c = '\n' ∨ c ∈ x.data := by
    intro c hc
    exact mem_pySub_newlines_aux x.data.length x.data le_rfl c
      (mem_pyStripSet isPySpace _ c hc)
  have hr1 : '<' ∉ pyStripSet isPySpace (pySub matchNewlines3 x.data) := by
    intro hmm
    rcases hmem '<' hmm with h | h
    · exact absurd h (by decide)
    · exact h1 h
  have hr2 : '&' ∉ pyStripSet isPySpace (pySub matchNewlines3 x.data) := by
    intro hmm
    rcases hmem '&' hmm with h | h
    · exact absurd h (by decide)
    · exact h2 h
  rw [html_pipeline_reduce _ (hrd ▸ hr1) (hrd ▸ hr2), hrd]
  have hnt : noTriple (pyStripSet isPySpace (pySub matchNewlines3 x.data)) := by
    have h0 := (collapse_noTriple_aux x.data.length x.data le_rfl).1
    unfold noTriple at h0 ⊢
    cases hcs : containsSub "\n\n\n".data
        (pyStripSet isPySpace (pySub matchNewlines3 x.data)) with
    | false => rfl
    | true =>
      have := containsSub_pyStripSet _ _ _ hcs
      rw [h0] at this
      exact absurd this (by simp)
  rw [pySub_newlines_id _ hnt, pyStripSet_idem]

/-- Witness for the amended C8 theorem on plain text. -/
theorem html_to_markdown_amended_witness :
    html_to_markdown (html_to_markdown "plain text") = html_to_markdown "plain text" :=
  html_to_markdown_amended.2 "plain text" (by decide) (by decide)

/-- C10: parse_caption_file discards every non-blank line whose stripped
form consists solely of the characters a to f, 0 to 9 and dash — such a
line contributes nothing to the flattened transcript, wherever it
occurs. -/
theorem caption_hex_line_dropped (pre post : List (List Char)) (l : List Char)
    (h1 : (pyStripSet isPySpace l).isEmpty = false)
    (h2 : (pyStripSet isPySpace l).all isHexIdChar = true) :
    parse_caption_lines (pre ++ l :: post) = parse_caption_lines (pre ++ post) := by
  have hdrop : processCaptionLine l = none := by
    unfold processCaptionLine
    simp only [h1, h2, Bool.not_false, Bool.true_and, Bool.and_true, if_true, ite_self]
  simp [parse_caption_lines, List.filterMap_append, List.filterMap_cons, hdrop]

/-- Witness for C10 at the ordinary word face on a caption line of its
own between two spoken lines. -/
theorem caption_hex_line_dropped_witness :
    (pyStripSet isPySpace "face".data).isEmpty = false ∧
    (pyStripSet isPySpace "face".data).all isHexIdChar = true ∧
    parse_caption_lines (["hello".data] ++ "face".data :: ["world".data]) =
      parse_caption_lines (["hello".data] ++ ["world".data]) :=
  ⟨by decide, by decide,
    caption_hex_line_dropped ["hello".data] ["world".data] "face".data
      (by decide) (by decide)⟩

/-- C7 counterexample: identify_content_type is not total — on the URL
http colon slash slash open-bracket the urlparse call it performs (and
never uses) raises ValueError Invalid IPv6 URL, modelled as the error
outcome. -/
theorem identify_content_type_raises :
    identify_content_type "http://[" = Except.error "Invalid IPv6 URL" := by
  rfl

/-- C7 (amended): for every URL string, identify_content_type either
propagates the error its embedded urlsplit raises (an unbalanced square
bracket in the network location), or returns one of the seven tags. -/
theorem identify_content_type_amended (url : String) :
    (∃ e, identify_content_type url = Except.error e ∧ pyUrlsplit url = Except.error e) ∨
    (∃ t, identify_content_type url = Except.ok t ∧
      t ∈ ["youtube", "vimeo", "panopto", "pdf", "word", "powerpoint", "webpage"]) := by
  unfold identify_content_type
  cases h : pyUrlsplit url with
  | error e => exact Or.inl ⟨e, rfl, rfl⟩
  | ok parts =>
    refine Or.inr ⟨_, rfl, ?_⟩
    split
    · simp
    · split
      · simp
      · split
        · simp
        · split
          · simp
          · split
            · simp
            · split
              · simp
              · simp

/-- Pages with no exception collect exactly the non-empty page texts in
order. -/
theorem collectPages_of_no_error :
    ∀ ps : List (Except String String), firstPageError ps = none →
      collectPages ps = Except.ok (ps.filterMap pageText) := by
  intro ps
  induction ps with
  | nil => intro _; rfl
  | cons p rest ih =>
    intro h
    cases p with
    | error e => simp [firstPageError] at h
    | ok t =>
      simp only [firstPageError] at h
      unfold collectPages
      rw [ih h]
      by_cases ht : t.data.isEmpty
      · simp [List.filterMap_cons, pageText, ht]
      · simp [List.filterMap_cons, pageText, ht]

/-- The first page exception escapes the whole collection loop. -/
theorem collectPages_of_first_error :
    ∀ (ps : List (Except String String)) (e : String), firstPageError ps = some e →
      collectPages ps = Except.error e := by
  intro ps
  induction ps with
  | nil => intro e h; simp [firstPageError] at h
  | cons p rest ih =>
    intro e h
    cases p with
    | error f =>
      simp only [firstPageError, Option.some.injEq] at h
      subst h
      rfl
    | ok t =>
      simp only [firstPageError] at h
      unfold collectPages
      rw [ih e h]

/-- C6 counterexample: on a buffer with the PDF magic whose second page
raises, extract_pdf_text returns the error placeholder and discards the
first and third pages, instead of skipping the failing page and
continuing as the claim states. -/
theorem extract_pdf_text_page_error_counterexample :
    extract_pdf_text "%PDF-1.4"
      (Except.ok [Except.ok "alpha", Except.error "boom", Except.ok "gamma"])
      = "[Could not extract PDF text: boom]" ∧
    extract_pdf_text "%PDF-1.4"
      (Except.ok [Except.ok "alpha", Except.error "boom", Except.ok "gamma"])
      ≠ "alpha\n\ngamma" := by
  exact ⟨rfl, by decide⟩

/-- C6 (amended): for a buffer with the PDF magic signature, when no
page raises the result is the non-empty page texts in order joined by a
blank line (empty page texts are skipped); when some page raises, the
first such exception aborts the whole document and the result is the
error placeholder embedding it. -/
theorem extract_pdf_text_amended (pdfBytes : String)
    (ps : List (Except String String))
    (hmagic : listStartsWith "%PDF".data pdfBytes.data = true) :
    (firstPageError ps = none →
      extract_pdf_text pdfBytes (Except.ok ps) =
        String.mk (joinWith "\n\n".data ((ps.filterMap pageText).map String.data))) ∧
    (∀ e, firstPageError ps = some e →
      extract_pdf_text pdfBytes (Except.ok ps) =
        "[Could not extract PDF text: " ++ e ++ "]") := by
  constructor
  · intro h
    unfold extract_pdf_text
    simp only [hmagic, Bool.not_true, Bool.false_eq_true, if_false]
    rw [collectPages_of_no_error ps h]
  · intro e h
    unfold extract_pdf_text
    simp only [hmagic, Bool.not_true, Bool.false_eq_true, if_false]
    rw [collectPages_of_first_error ps e h]

/-- Witness for the amended C6 theorem on a concrete three-page document
whose middle page yields empty text. -/
theorem extract_pdf_text_amended_witness :
    firstPageError [Except.ok "alpha", Except.ok "", Except.ok "gamma"] = none ∧
    extract_pdf_text "%PDF-1.4"
      (Except.ok [Except.ok "alpha", Except.ok "", Except.ok "gamma"]) =
      String.mk (joinWith "\n\n".data
        (([Except.ok "alpha", Except.ok "", Except.ok "gamma"].filterMap pageText).map
          String.data)) :=
  ⟨by decide,
    (extract_pdf_text_amended "%PDF-1.4" [Except.ok "alpha", Except.ok "", Except.ok "gamma"]
      (by decide)).1 (by decide)⟩

/-- C2: on an external-url Panopto item whose delivery exposes no
caption track, the content is the bracketed captions-not-available
placeholder (spelled with a capital V in Panopto Video), but the branch
tests the lowercase prefix, so the record is returned with extracted
true — the placeholder is counted as a successful extraction, against
the stated invariant that extracted is false on every
failure-placeholder content. -/
theorem panopto_placeholder_marked_extracted :
    process_module_item panoptoBugItem panoptoBugEnv =
      Except.ok {
        title := "Lecture 1",
        type := "externalurl",
        url := some "https://uni.hosted.panopto.com/Panopto/Pages/Viewer.aspx?id=abc-123",
        content := some "[Panopto Video: Week 1 Lecture]\n[Captions not available or require authentication]",
        extracted := true,
        video_id := some "abc-123",
        local_path := none,
        extracted_to := none } ∧
    listStartsWith "[Panopto Video".data
      "[Panopto Video: Week 1 Lecture]\n[Captions not available or require authentication]".data
      = true ∧
    listStartsWith "[Panopto video".data
      "[Panopto Video: Week 1 Lecture]\n[Captions not available or require authentication]".data
      = false := by
  exact ⟨by rfl, by decide, by decide⟩

end CanvasCompleter
